import Mathlib

/-!
Verification of the frequency-domain metric engine and compliance evaluator of
the Macallan RF performance tool.

The development shallowly embeds the Python sources:
  - src/core/rf_data/s_parameter_calculator.py  (SParameterCalculator)
  - src/core/models/device.py                   (Device port configuration)
  - src/core/models/test_criteria.py            (TestCriteria)
  - src/core/models/test_result.py              (TestResult)
  - src/core/test_types/s_parameters.py         (SParametersTestType)

Modelling conventions:
  - Python floats that carry frequencies or raw S-parameter data are modelled
    as rationals; the decibel conversion 20*log10 is irrational, so derived
    gain, VSWR and rejection values live in the reals.
  - numpy and scikit-rf behaviour is modelled per its documented semantics:
    linear interpolation of real and imaginary parts, np.min and np.max raise
    on empty arrays (modelled as Option.none), numpy negative indices wrap.
  - a raised Python exception is modelled as Option.none of the embedded
    function; an except-clause that swallows an exception is modelled by
    matching that none.
  - the random uuid4 identity of a freshly created TestResult is dropped
    (it is nondeterministic); all other result fields are kept.
-/

/-! ## List utilities (models of np.min, np.max, np.unique, sorted) -/

/-- Model of np.min over a possibly empty array: none on empty input,
mirroring the ValueError numpy raises. -/
def minVal {α : Type} [LinearOrder α] : List α → Option α
  | [] => none
  | [x] => some x
  | x :: y :: rest => (minVal (y :: rest)).map (fun m => min x m)

/-- Model of np.max over a possibly empty array. -/
def maxVal {α : Type} [LinearOrder α] : List α → Option α
  | [] => none
  | [x] => some x
  | x :: y :: rest => (maxVal (y :: rest)).map (fun m => max x m)

theorem minVal_le {α : Type} [LinearOrder α] :
    ∀ {l : List α} {m y : α}, minVal l = some m → y ∈ l → m ≤ y := by
  intro l
  induction l with
  | nil => intro m y hm _; cases hm
  | cons x xs ih =>
    intro m y hm hy
    cases xs with
    | nil =>
      rcases List.mem_singleton.mp hy with rfl
      simp only [minVal, Option.some.injEq] at hm
      exact le_of_eq hm.symm
    | cons z zs =>
      rcases hrec : minVal (z :: zs) with _ | m₂
      · rw [minVal, hrec] at hm; cases hm
      · rw [minVal, hrec] at hm
        simp only [Option.map_some', Option.some.injEq] at hm
        subst hm
        rcases List.mem_cons.mp hy with rfl | hy₂
        · exact min_le_left _ _
        · exact le_trans (min_le_right _ _) (ih hrec hy₂)

theorem minVal_mem {α : Type} [LinearOrder α] :
    ∀ {l : List α} {m : α}, minVal l = some m → m ∈ l := by
  intro l
  induction l with
  | nil => intro m hm; cases hm
  | cons x xs ih =>
    intro m hm
    cases xs with
    | nil =>
      simp only [minVal, Option.some.injEq] at hm
      subst hm
      exact List.mem_singleton.mpr rfl
    | cons z zs =>
      rcases hrec : minVal (z :: zs) with _ | m₂
      · rw [minVal, hrec] at hm; cases hm
      · rw [minVal, hrec] at hm
        simp only [Option.map_some', Option.some.injEq] at hm
        subst hm
        rcases min_choice x m₂ with hc | hc
        · rw [hc]; exact List.mem_cons_self _ _
        · rw [hc]; exact List.mem_cons_of_mem _ (ih hrec)

theorem le_maxVal {α : Type} [LinearOrder α] :
    ∀ {l : List α} {m y : α}, maxVal l = some m → y ∈ l → y ≤ m := by
  intro l
  induction l with
  | nil => intro m y hm _; cases hm
  | cons x xs ih =>
    intro m y hm hy
    cases xs with
    | nil =>
      rcases List.mem_singleton.mp hy with rfl
      simp only [maxVal, Option.some.injEq] at hm
      exact le_of_eq hm
    | cons z zs =>
      rcases hrec : maxVal (z :: zs) with _ | m₂
      · rw [maxVal, hrec] at hm; cases hm
      · rw [maxVal, hrec] at hm
        simp only [Option.map_some', Option.some.injEq] at hm
        subst hm
        rcases List.mem_cons.mp hy with rfl | hy₂
        · exact le_max_left _ _
        · exact le_trans (ih hrec hy₂) (le_max_right _ _)

theorem minVal_isSome {α : Type} [LinearOrder α] :
    ∀ {l : List α}, l ≠ [] → ∃ m, minVal l = some m := by
  intro l
  induction l with
  | nil => intro h; exact absurd rfl h
  | cons x xs ih =>
    intro _
    cases xs with
    | nil => exact ⟨x, rfl⟩
    | cons z zs =>
      rcases ih (by simp) with ⟨m₂, hm₂⟩
      exact ⟨min x m₂, by rw [minVal, hm₂]; rfl⟩

theorem maxVal_isSome {α : Type} [LinearOrder α] :
    ∀ {l : List α}, l ≠ [] → ∃ m, maxVal l = some m := by
  intro l
  induction l with
  | nil => intro h; exact absurd rfl h
  | cons x xs ih =>
    intro _
    cases xs with
    | nil => exact ⟨x, rfl⟩
    | cons z zs =>
      rcases ih (by simp) with ⟨m₂, hm₂⟩
      exact ⟨max x m₂, by rw [maxVal, hm₂]; rfl⟩

/-- Insert a rational into a strictly sorted list, skipping duplicates. -/
def insertSorted (x : ℚ) : List ℚ → List ℚ
  | [] => [x]
  | y :: ys =>
    if x < y then x :: y :: ys
    else if x = y then y :: ys
    else y :: insertSorted x ys

/-- Model of np.unique over np.sort output: the strictly increasing list of
the distinct values of the input. -/
def sortedDedup (l : List ℚ) : List ℚ := l.foldr insertSorted []

theorem mem_insertSorted {x a : ℚ} : ∀ {l : List ℚ},
    a ∈ insertSorted x l ↔ a = x ∨ a ∈ l := by
  intro l
  induction l with
  | nil => simp [insertSorted]
  | cons y ys ih =>
    by_cases h1 : x < y
    · simp [insertSorted, h1]
    · by_cases h2 : x = y
      · subst h2
        simp only [insertSorted, h1, if_false, if_pos rfl, lt_irrefl]
        constructor
        · intro h; exact Or.inr h
        · intro h; rcases h with rfl | h
          · exact List.mem_cons_self _ _
          · exact h
      · simp only [insertSorted, h1, h2, if_false, List.mem_cons, ih]
        tauto

theorem pairwise_insertSorted {x : ℚ} : ∀ {l : List ℚ},
    l.Pairwise (· < ·) → (insertSorted x l).Pairwise (· < ·) := by
  intro l
  induction l with
  | nil => intro _; simp [insertSorted]
  | cons y ys ih =>
    intro hp
    rcases List.pairwise_cons.mp hp with ⟨hy, hys⟩
    by_cases h1 : x < y
    · simp only [insertSorted, if_pos h1]
      refine List.pairwise_cons.mpr ⟨?_, hp⟩
      intro z hz
      rcases List.mem_cons.mp hz with rfl | hz2
      · exact h1
      · exact lt_trans h1 (hy z hz2)
    · by_cases h2 : x = y
      · simpa [insertSorted, h1, h2] using hp
      · simp only [insertSorted, h1, h2, if_false]
        refine List.pairwise_cons.mpr ⟨?_, ih hys⟩
        intro z hz
        rcases mem_insertSorted.mp hz with rfl | hz2
        · exact lt_of_le_of_ne (not_lt.mp h1) (Ne.symm h2)
        · exact hy z hz2

theorem pairwise_sortedDedup : ∀ (l : List ℚ), (sortedDedup l).Pairwise (· < ·) := by
  intro l
  induction l with
  | nil => simp [sortedDedup]
  | cons x xs ih => exact pairwise_insertSorted ih

theorem mem_sortedDedup {a : ℚ} : ∀ {l : List ℚ}, a ∈ sortedDedup l ↔ a ∈ l := by
  intro l
  induction l with
  | nil => simp [sortedDedup]
  | cons x xs ih =>
    show a ∈ insertSorted x (sortedDedup xs) ↔ _
    rw [mem_insertSorted]
    simp [ih, List.mem_cons]

/-- Two strictly sorted lists with the same members are equal. -/
theorem pairwise_lt_ext {α : Type} [LinearOrder α] :
    ∀ (l₁ l₂ : List α), l₁.Pairwise (· < ·) → l₂.Pairwise (· < ·) →
      (∀ a, a ∈ l₁ ↔ a ∈ l₂) → l₁ = l₂ := by
  intro l₁
  induction l₁ with
  | nil =>
    intro l₂ _ _ hmem
    cases l₂ with
    | nil => rfl
    | cons y ys => exact absurd ((hmem y).mpr (List.mem_cons_self _ _)) (by simp)
  | cons x xs ih =>
    intro l₂ hp₁ hp₂ hmem
    cases l₂ with
    | nil => exact absurd ((hmem x).mp (List.mem_cons_self _ _)) (by simp)
    | cons y ys =>
      rcases List.pairwise_cons.mp hp₁ with ⟨hx, hxs⟩
      rcases List.pairwise_cons.mp hp₂ with ⟨hy, hys⟩
      have hxy : x = y := by
        rcases List.mem_cons.mp ((hmem x).mp (List.mem_cons_self _ _)) with h | h
        · exact h
        · rcases List.mem_cons.mp ((hmem y).mpr (List.mem_cons_self _ _)) with h2 | h2
          · exact h2.symm
          · exact absurd (lt_trans (hx y h2) (hy x h)) (lt_irrefl x)
      subst hxy
      have htail : ∀ a, a ∈ xs ↔ a ∈ ys := by
        intro a
        constructor
        · intro ha
          rcases List.mem_cons.mp ((hmem a).mp (List.mem_cons_of_mem _ ha)) with h | h
          · exact absurd (hx a ha) (by rw [h]; exact lt_irrefl _)
          · exact h
        · intro ha
          rcases List.mem_cons.mp ((hmem a).mpr (List.mem_cons_of_mem _ ha)) with h | h
          · exact absurd (hy a ha) (by rw [h]; exact lt_irrefl _)
          · exact h
      rw [ih ys hxs hys htail]

/-- The head of a strictly sorted list is its least member. -/
theorem head?_of_least {l : List ℚ} {x : ℚ} (_ : l.Pairwise (· < ·))
    (hmem : x ∈ l) (hle : ∀ y ∈ l, x ≤ y) : l.head? = some x := by
  cases l with
  | nil => cases hmem
  | cons a as =>
    have hax : a = x := le_antisymm
      (by rcases List.mem_cons.mp hmem with rfl | h
          · exact le_refl _
          · exact le_of_lt ((List.pairwise_cons.mp (by assumption)).1 x h))
      (hle a (List.mem_cons_self _ _))
    rw [hax]
    rfl

/-- The last element of a strictly sorted list is its greatest member. -/
theorem getLast?_of_greatest {l : List ℚ} {x : ℚ} (hp : l.Pairwise (· < ·))
    (hmem : x ∈ l) (hge : ∀ y ∈ l, y ≤ x) : l.getLast? = some x := by
  rw [List.getLast?_eq_head?_reverse]
  have hrev : l.reverse.Pairwise (· > ·) := by
    rw [List.pairwise_reverse]
    exact hp
  cases hl : l.reverse with
  | nil =>
    exfalso
    have : l = [] := by
      have := congrArg List.reverse hl
      simpa using this
    subst this
    cases hmem
  | cons a as =>
    have hamem : a ∈ l := by
      have : a ∈ l.reverse := by rw [hl]; exact List.mem_cons_self _ _
      exact List.mem_reverse.mp this
    have hax : a = x := le_antisymm (hge a hamem)
      (by
        have hxrev : x ∈ l.reverse := List.mem_reverse.mpr hmem
        rw [hl] at hxrev
        rcases List.mem_cons.mp hxrev with rfl | h
        · exact le_refl _
        · rw [hl] at hrev
          exact le_of_lt ((List.pairwise_cons.mp hrev).1 x h))
    rw [hax]
    rfl

/-- Association list lookup with Python dict semantics for reads: the first
entry with the requested key (generated key sets are duplicate free). -/
def alookup {ν : Type} {κ : Type} [DecidableEq κ] (k : κ) : List (κ × ν) → Option ν
  | [] => none
  | (k₂, v) :: rest => if k₂ = k then some v else alookup k rest

theorem alookup_found {ν κ : Type} [DecidableEq κ] (k : κ) (P : ν → Prop) :
    ∀ (l : List (κ × ν)), (∃ v, (k, v) ∈ l) → (∀ v, (k, v) ∈ l → P v) →
      ∃ v, alookup k l = some v ∧ P v := by
  intro l
  induction l with
  | nil => intro h _; rcases h with ⟨v, hv⟩; cases hv
  | cons e rest ih =>
    intro hex hall
    rcases e with ⟨k₂, v₂⟩
    by_cases hk : k₂ = k
    · subst hk
      exact ⟨v₂, by simp [alookup], hall v₂ (List.mem_cons_self _ _)⟩
    · rcases hex with ⟨v, hv⟩
      rcases List.mem_cons.mp hv with h | h
      · exact absurd (congrArg Prod.fst h).symm hk
      · rcases ih ⟨v, h⟩ (fun w hw => hall w (List.mem_cons_of_mem _ hw)) with ⟨w, hw, hPw⟩
        exact ⟨w, by simpa [alookup, hk] using hw, hPw⟩

theorem length_filterMap_of_all {α β : Type} (f : α → Option β) :
    ∀ (l : List α), (∀ x ∈ l, ∃ y, f x = some y) →
      (l.filterMap f).length = l.length := by
  intro l
  induction l with
  | nil => intro _; rfl
  | cons x xs ih =>
    intro h
    rcases h x (List.mem_cons_self _ _) with ⟨y, hy⟩
    rw [List.filterMap_cons, hy, List.length_cons,
      ih (fun z hz => h z (List.mem_cons_of_mem _ hz)), List.length_cons]

/-! ## Linear interpolation (model of the scikit-rf linear interpolation of
real and imaginary parts used by Network.interpolate) -/

/-- Piecewise linear interpolation through a list of (x, y) samples, constant
beyond the ends, as numpy and scipy perform it on an ascending grid. -/
def interp1 : List (ℚ × ℚ) → ℚ → ℚ
  | [], _ => 0
  | [(_, y)], _ => y
  | (x₁, y₁) :: (x₂, y₂) :: rest, t =>
    if t ≤ x₁ then y₁
    else if t ≤ x₂ then y₁ + (y₂ - y₁) * (t - x₁) / (x₂ - x₁)
    else interp1 ((x₂, y₂) :: rest) t

/-- Interpolation at a grid point of a strictly ascending grid returns the
stored sample exactly. -/
theorem interp1_grid : ∀ (ps : List (ℚ × ℚ)), (ps.map Prod.fst).Pairwise (· < ·) →
    ∀ p ∈ ps, interp1 ps p.1 = p.2 := by
  intro ps
  induction ps with
  | nil => intro _ p hp; cases hp
  | cons e tail ih =>
    intro hp p hmem
    rcases e with ⟨x₁, y₁⟩
    rw [List.map_cons] at hp
    rcases List.pairwise_cons.mp hp with ⟨hhead, htail⟩
    have hx₁lt : ∀ q ∈ tail, x₁ < q.1 := fun q hq =>
      hhead q.1 (List.mem_map_of_mem Prod.fst hq)
    rcases List.mem_cons.mp hmem with heq | hmem₂
    · rw [heq]
      cases tail with
      | nil => rfl
      | cons e₂ rest =>
        rcases e₂ with ⟨x₂, y₂⟩
        show interp1 ((x₁, y₁) :: (x₂, y₂) :: rest) x₁ = y₁
        simp [interp1, le_refl]
    · cases tail with
      | nil => cases hmem₂
      | cons e₂ rest =>
        rcases e₂ with ⟨x₂, y₂⟩
        have hx₁p : x₁ < p.1 := hx₁lt p hmem₂
        have h2 : ¬ p.1 ≤ x₁ := not_le.mpr hx₁p
        rcases List.mem_cons.mp hmem₂ with heq | hmem₃
        · have hx₂ : x₁ < x₂ := by simpa using hx₁lt (x₂, y₂) (List.mem_cons_self _ _)
          have hne : x₂ - x₁ ≠ 0 := sub_ne_zero.mpr (ne_of_gt hx₂)
          rw [heq]
          show interp1 ((x₁, y₁) :: (x₂, y₂) :: rest) x₂ = y₂
          have h2x : ¬ x₂ ≤ x₁ := not_le.mpr hx₂
          simp only [interp1, h2x, if_false, le_refl, if_true]
          field_simp
        · have hx₂p : x₂ < p.1 := by
            rw [List.map_cons] at htail
            exact (List.pairwise_cons.mp htail).1 p.1 (List.mem_map_of_mem Prod.fst hmem₃)
          have h3 : ¬ p.1 ≤ x₂ := not_le.mpr hx₂p
          show interp1 ((x₁, y₁) :: (x₂, y₂) :: rest) p.1 = p.2
          simp only [interp1, h2, h3, if_false]
          exact ih htail p hmem₂

/-! ## Network model (scikit-rf Network: frequency array in Hz plus complex
S-parameter matrix per frequency point, entries as (re, im) rationals) -/

/-- In-memory model of a scikit-rf Network: frequencies in Hz and, aligned
with them, one nports x nports matrix of complex S-parameter samples. -/
structure RFNetwork where
  freqs : List ℚ
  nports : ℕ
  s : List (List (List (ℚ × ℚ)))
  deriving DecidableEq

/-- Entry (i, j) of one S-matrix sample, 0-indexed, with a zero default for
out-of-shape reads (shapes are well formed in every construction below). -/
def sEntry (m : List (List (ℚ × ℚ))) (i j : ℕ) : ℚ × ℚ :=
  (m.getD i []).getD j (0, 0)

/-- The (frequency, entry) trace of one S-parameter across the sweep. -/
def sTrace (network : RFNetwork) (i j : ℕ) : List (ℚ × (ℚ × ℚ)) :=
  network.freqs.zip (network.s.map (fun m => sEntry m i j))

/-- Linear interpolation of one complex S-parameter at frequency t: real and
imaginary parts are interpolated independently (scikit-rf linear basis). -/
def interpPoint (network : RFNetwork) (i j : ℕ) (t : ℚ) : ℚ × ℚ :=
  ((sTrace network i j).map (fun p => (p.1, p.2.1)) |> fun ps => interp1 ps t,
   (sTrace network i j).map (fun p => (p.1, p.2.2)) |> fun ps => interp1 ps t)

/-- Model of Network.interpolate: rebuild the network on the target frequency
grid, interpolating every port pair linearly. -/
def interpNetwork (network : RFNetwork) (targets : List ℚ) : RFNetwork where
  freqs := targets
  nports := network.nports
  s := targets.map (fun t =>
    (List.range network.nports).map (fun i =>
      (List.range network.nports).map (fun j => interpPoint network i j t)))

/-- Model of boolean-mask selection of the frequency points inside
[lo, hi] (the final inclusive-tolerance mask of filter_frequency_range). -/
def maskNetwork (network : RFNetwork) (lo hi : ℚ) : RFNetwork where
  freqs := ((network.freqs.zip network.s).filter
    (fun p => decide (lo ≤ p.1 ∧ p.1 ≤ hi))).map Prod.fst
  nports := network.nports
  s := ((network.freqs.zip network.s).filter
    (fun p => decide (lo ≤ p.1 ∧ p.1 ≤ hi))).map Prod.snd

/-- Model of np.clip for scalars. -/
def clampQ (x lo hi : ℚ) : ℚ := min (max x lo) hi

/-- Embeds SParameterCalculator.filter_frequency_range: GHz bounds are scaled
to Hz, swapped if reversed, clamped to the measured domain; the original
samples inside the range plus the two clamped boundary values form the target
grid; the network is interpolated onto that grid and masked back to the
range with a 1e-9 inclusive tolerance. An empty sweep is returned unchanged
(the source returns a copy). -/
def filter_frequency_range (network : RFNetwork) (freq_min freq_max : ℚ) : RFNetwork :=
  if network.freqs = [] then network
  else
    let freq_min_hz : ℚ := freq_min * 1e9
    let freq_max_hz : ℚ := freq_max * 1e9
    let lo := if freq_min_hz > freq_max_hz then freq_max_hz else freq_min_hz
    let hi := if freq_min_hz > freq_max_hz then freq_min_hz else freq_max_hz
    let global_min := (minVal network.freqs).getD 0
    let global_max := (maxVal network.freqs).getD 0
    let target_min := clampQ lo global_min global_max
    let target_max := clampQ hi global_min global_max
    let interior := network.freqs.filter
      (fun f => decide (target_min ≤ f ∧ f ≤ target_max))
    let targets := sortedDedup (interior ++ [target_min, target_max])
    let interpolated := interpNetwork network targets
    maskNetwork interpolated (target_min - 1e-9) (target_max + 1e-9)

/-! ## S-parameter label parsing and the calculator -/

/-- Embeds the label regular expression of calculate_gain. Python re.match
anchors at the start only, so exactly the first three characters are
examined: an S followed by two decimal digits; anything may follow. -/
def parseSParam (sp : String) : Option (ℕ × ℕ) :=
  match sp.data with
  | c :: c₁ :: c₂ :: _ =>
    if (c == 'S') && c₁.isDigit && c₂.isDigit then
      some (c₁.toNat - 48, c₂.toNat - 48)
    else none
  | _ => none

/-- Model of numpy axis indexing with a possibly negative index: negative
indices wrap once from the end, anything else out of range raises. -/
def resolveIdx (n : ℕ) (i : ℤ) : Option ℕ :=
  if 0 ≤ i ∧ i < (n : ℤ) then some i.toNat
  else if i < 0 ∧ 0 ≤ i + (n : ℤ) then some (i + (n : ℤ)).toNat
  else none

/-- Magnitude in dB of one complex sample: 20 log10 of the modulus, written
as 10 log10 of the squared modulus (scikit-rf s_db). -/
noncomputable def db20 (z : ℚ × ℚ) : ℝ :=
  10 * Real.logb 10 ((z.1 ^ 2 + z.2 ^ 2 : ℚ) : ℝ)

/-- VSWR of one complex reflection sample: (1 + g) / (1 - g) for the
modulus g (scikit-rf s_vswr). -/
noncomputable def vswrPoint (z : ℚ × ℚ) : ℝ :=
  (1 + Real.sqrt ((z.1 ^ 2 + z.2 ^ 2 : ℚ) : ℝ)) /
    (1 - Real.sqrt ((z.1 ^ 2 + z.2 ^ 2 : ℚ) : ℝ))

/-- Embeds SParameterCalculator.calculate_gain: parse the label, convert the
two 1-indexed ports to 0-indexed numpy indices, and read the dB magnitude of
that S-parameter at every frequency point. A failed parse models the raised
ValueError for an invalid format. -/
noncomputable def calculate_gain (network : RFNetwork) (s_param : String) :
    Option (List ℝ) := do
  let ports ← parseSParam s_param
  let out_port ← resolveIdx network.nports ((ports.1 : ℤ) - 1)
  let in_port ← resolveIdx network.nports ((ports.2 : ℤ) - 1)
  some (network.s.map (fun m => db20 (sEntry m out_port in_port)))

/-- Embeds SParameterCalculator.calculate_gain_range: window the network to
the operational range, compute the gain there, and take np.min and np.max. -/
noncomputable def calculate_gain_range (network : RFNetwork)
    (freq_min freq_max : ℚ) (s_param : String) : Option (ℝ × ℝ) := do
  let filtered := filter_frequency_range network freq_min freq_max
  let gain_db ← calculate_gain filtered s_param
  let min_gain ← minVal gain_db
  let max_gain ← maxVal gain_db
  some (min_gain, max_gain)

/-- Embeds SParameterCalculator.calculate_flatness: max minus min of the
windowed gain. -/
noncomputable def calculate_flatness (network : RFNetwork)
    (freq_min freq_max : ℚ) (s_param : String) : Option ℝ :=
  (calculate_gain_range network freq_min freq_max s_param).map
    (fun p => p.2 - p.1)

/-- Embeds SParameterCalculator.calculate_lowest_in_band_gain: the min
component of the windowed gain range. -/
noncomputable def calculate_lowest_in_band_gain (network : RFNetwork)
    (freq_min freq_max : ℚ) (s_param : String) : Option ℝ :=
  (calculate_gain_range network freq_min freq_max s_param).map (fun p => p.1)

/-- Embeds SParameterCalculator.calculate_oob_rejection: the lowest in-band
gain over the operational band is the reference; the network is windowed to
the OOB band, per-point rejection is reference minus OOB gain, and the
worst-case (np.min) rejection is returned. -/
noncomputable def calculate_oob_rejection (network : RFNetwork)
    (oob_freq_min oob_freq_max operational_freq_min operational_freq_max : ℚ)
    (s_param : String) : Option ℝ := do
  let lowest_in_band ← calculate_lowest_in_band_gain network
    operational_freq_min operational_freq_max s_param
  let oob_network := filter_frequency_range network oob_freq_min oob_freq_max
  let gain_at_oob ← calculate_gain oob_network s_param
  let rejections := gain_at_oob.map (fun g => lowest_in_band - g)
  minVal rejections

/-- Embeds SParameterCalculator.calculate_vswr in the form the compliance
engine always uses it (both frequency bounds supplied): window the network,
read the reflection coefficient of the requested 1-indexed port, convert to
VSWR and return the worst-case (np.max) value over the window. A port index
beyond the port count models the raised ValueError. -/
noncomputable def calculate_vswr (network : RFNetwork) (port : ℕ)
    (freq_min freq_max : ℚ) : Option ℝ := do
  let filtered := filter_frequency_range network freq_min freq_max
  let port_idx ← resolveIdx network.nports ((port : ℤ) - 1)
  let vswr := filtered.s.map (fun m => vswrPoint (sEntry m port_idx port_idx))
  maxVal vswr

/-! ## Device port configuration -/

/-- S-parameter label built the way every f-string in the source builds it:
the letter S, then the output port, then the input port. -/
def sparamLabel (out_port in_port : ℕ) : String :=
  "S" ++ toString out_port ++ toString in_port

/-- Embeds the port-configuration slice of the Device model: the 1-indexed
input and output port lists (identity and frequency fields are not used by
the compliance engine and are omitted). -/
structure Device where
  input_ports : List ℕ
  output_ports : List ℕ
  deriving DecidableEq

/-- Embeds Device.get_all_ports: inputs and outputs, deduplicated, sorted. -/
def Device.get_all_ports (d : Device) : List ℕ :=
  ((d.input_ports ++ d.output_ports).dedup).mergeSort (fun a b => a ≤ b)

/-- Embeds Device.get_gain_s_parameters: one label S{out}{in} per
(input, output) pair whose two ports fit in the port count, sorted. -/
def Device.get_gain_s_parameters (d : Device) (n_ports : ℕ) : List String :=
  (d.input_ports.flatMap (fun input_port =>
    d.output_ports.filterMap (fun output_port =>
      if input_port ≤ n_ports ∧ output_port ≤ n_ports then
        some (sparamLabel output_port input_port)
      else none))).mergeSort (fun a b => a ≤ b)

/-- Embeds Device.get_vswr_s_parameters: one reflection label S{p}{p} per
port in the union of the port lists that fits in the port count, sorted. -/
def Device.get_vswr_s_parameters (d : Device) (n_ports : ℕ) : List String :=
  ((d.get_all_ports.filter (fun p => decide (p ≤ n_ports))).map
    (fun p => sparamLabel p p)).mergeSort (fun a b => a ≤ b)

/-! ## Test criteria -/

/-- Embeds the TestCriteria model. Bounds for measured values are reals
(they are compared with derived dB and VSWR values); the OOB frequency band
is rational GHz (it is fed to the frequency window). -/
structure TestCriteria where
  id : ℕ
  device_id : ℕ
  test_type : String
  test_stage : String
  requirement_name : String
  criteria_type : String
  min_value : Option ℝ
  max_value : Option ℝ
  unit : String
  frequency_min : Option ℚ
  frequency_max : Option ℚ

/-- Embeds the construction-time validation of TestCriteria (the
criteria_type field validator plus validate_criteria_values): true exactly
when the pydantic construction would succeed. -/
noncomputable def validateCriteria (c : TestCriteria) : Bool :=
  decide (c.criteria_type ∈
    ["range", "min", "max", "less_than_equal", "greater_than_equal"]) &&
  (if c.criteria_type = "range" then
    match c.min_value, c.max_value with
    | some mn, some mx => decide (mn < mx)
    | _, _ => false
  else if c.criteria_type = "min" ∨ c.criteria_type = "greater_than_equal" then
    c.min_value.isSome && c.max_value.isNone
  else if c.criteria_type = "max" ∨ c.criteria_type = "less_than_equal" then
    c.max_value.isSome && c.min_value.isNone
  else true) &&
  (match c.frequency_min, c.frequency_max with
  | none, none => true
  | some fl, some fh => decide (fl < fh)
  | _, _ => false)

/-- Embeds TestCriteria.evaluate. The chained Python comparison
min <= value <= max is evaluated lazily left to right; comparing a missing
bound raises (modelled as none), as does an unknown criteria_type. -/
noncomputable def TestCriteria.evaluate (c : TestCriteria) (value : ℝ) :
    Option Bool :=
  if c.criteria_type = "range" then
    match c.min_value with
    | none => none
    | some lo =>
      if lo ≤ value then
        match c.max_value with
        | none => none
        | some hi => some (decide (value ≤ hi))
      else some false
  else if c.criteria_type = "min" ∨ c.criteria_type = "greater_than_equal" then
    match c.min_value with
    | none => none
    | some lo => some (decide (lo ≤ value))
  else if c.criteria_type = "max" ∨ c.criteria_type = "less_than_equal" then
    match c.max_value with
    | none => none
    | some hi => some (decide (value ≤ hi))
  else none

/-! ## Measurements, results and the metrics dictionary -/

/-- Embeds the slice of the Measurement model the engine reads: its identity
and the parsed network (none models a measurement with no touchstone data;
the serialized-bytes branch deserializes to the same network and is folded
into this field). -/
structure Measurement where
  id : ℕ
  touchstone_data : Option RFNetwork

/-- Embeds TestResult as the engine creates it. The random uuid4 result
identity is dropped; is_stale keeps its default, the engine never sets it. -/
structure TestResult where
  measurement_id : ℕ
  test_criteria_id : ℕ
  measured_value : Option ℝ
  passed : Bool
  s_parameter : Option String
  is_stale : Bool := false

/-- The kind half of a metrics-dictionary key. The source keys the dict with
the strings "{label} Gain Range", "{label} Flatness", "{label} Lowest
In-Band Gain" and "{label} VSWR"; since generated labels never contain a
space, those strings are in bijection with (label, kind) pairs. -/
inductive MetricKind where
  | gainRangeKey
  | flatnessKey
  | lowestGainKey
  | vswrKey
  deriving DecidableEq

/-- A value stored in the metrics dictionary. -/
inductive MetricValue where
  | gainRange (min_gain max_gain : ℝ)
  | flatness (value : ℝ)
  | lowestGain (value : ℝ)
  | vswr (value : ℝ)

/-- The try-block body of calculate_metrics for one 0-indexed port pair:
gain range, flatness and lowest in-band gain entries, each written only
after the previous ones, so a failure keeps the entries already written
(the except clause swallows the failure and moves on). -/
noncomputable def pairMetrics (network : RFNetwork) (op_min op_max : ℚ)
    (o i : ℕ) : List ((String × MetricKind) × MetricValue) :=
  let sp := sparamLabel (o + 1) (i + 1)
  match calculate_gain_range network op_min op_max sp with
  | none => []
  | some (min_gain, max_gain) =>
    match calculate_flatness network op_min op_max sp with
    | none => [((sp, MetricKind.gainRangeKey),
        MetricValue.gainRange min_gain max_gain)]
    | some fl =>
      match calculate_lowest_in_band_gain network op_min op_max sp with
      | none =>
        [((sp, MetricKind.gainRangeKey),
           MetricValue.gainRange min_gain max_gain),
         ((sp, MetricKind.flatnessKey), MetricValue.flatness fl)]
      | some lg =>
        [((sp, MetricKind.gainRangeKey),
           MetricValue.gainRange min_gain max_gain),
         ((sp, MetricKind.flatnessKey), MetricValue.flatness fl),
         ((sp, MetricKind.lowestGainKey), MetricValue.lowestGain lg)]

/-- The VSWR loop body of calculate_metrics for one 0-indexed port. -/
noncomputable def vswrMetric (network : RFNetwork) (op_min op_max : ℚ)
    (p : ℕ) : Option ((String × MetricKind) × MetricValue) :=
  match calculate_vswr network (p + 1) op_min op_max with
  | none => none
  | some v => some ((sparamLabel (p + 1) (p + 1), MetricKind.vswrKey),
      MetricValue.vswr v)

/-- Embeds SParametersTestType.calculate_metrics on an in-memory network:
for every ordered port pair the gain range, flatness and lowest in-band gain
over the operational band, then per-port worst-case VSWR; any per-pair
calculation failure skips the entries of that pair (the except clause),
leaving any entries already written. -/
noncomputable def metricsOfNetwork (network : RFNetwork) (op_min op_max : ℚ) :
    List ((String × MetricKind) × MetricValue) :=
  ((List.range network.nports).flatMap (fun o =>
    (List.range network.nports).flatMap (fun i =>
      pairMetrics network op_min op_max o i)))
  ++ ((List.range network.nports).filterMap (fun p =>
    vswrMetric network op_min op_max p))

/-- Embeds the calculate_metrics entry point: a measurement without
touchstone data raises (none); otherwise the dictionary above. -/
noncomputable def calculate_metrics (m : Measurement) (op_min op_max : ℚ) :
    Option (List ((String × MetricKind) × MetricValue)) :=
  match m.touchstone_data with
  | none => none
  | some network => some (metricsOfNetwork network op_min op_max)

/-! ## Criterion evaluators -/

/-- Embeds SParametersTestType._evaluate_gain_range_criterion: a missing
metric yields no result; otherwise both the windowed minimum and maximum
gain are evaluated against the criterion, the result passes only if both
pass, and the stored measured value is the maximum. -/
noncomputable def evaluateGainRangeCriterion (c : TestCriteria)
    (metrics : List ((String × MetricKind) × MetricValue)) (s_param : String)
    (m : Measurement) : Option TestResult :=
  match alookup (s_param, MetricKind.gainRangeKey) metrics with
  | some (MetricValue.gainRange min_gain max_gain) =>
    match c.evaluate min_gain, c.evaluate max_gain with
    | some min_pass, some max_pass =>
      some { measurement_id := m.id, test_criteria_id := c.id,
             measured_value := some max_gain, passed := min_pass && max_pass,
             s_parameter := some s_param }
    | _, _ => none
  | _ => none

/-- Embeds SParametersTestType._evaluate_flatness_criterion. -/
noncomputable def evaluateFlatnessCriterion (c : TestCriteria)
    (metrics : List ((String × MetricKind) × MetricValue)) (s_param : String)
    (m : Measurement) : Option TestResult :=
  match alookup (s_param, MetricKind.flatnessKey) metrics with
  | some (MetricValue.flatness fl) =>
    match c.evaluate fl with
    | some passed =>
      some { measurement_id := m.id, test_criteria_id := c.id,
             measured_value := some fl, passed := passed,
             s_parameter := some s_param }
    | none => none
  | _ => none

/-- Embeds SParametersTestType._evaluate_vswr_criterion. -/
noncomputable def evaluateVswrCriterion (c : TestCriteria)
    (metrics : List ((String × MetricKind) × MetricValue)) (s_param : String)
    (m : Measurement) : Option TestResult :=
  match alookup (s_param, MetricKind.vswrKey) metrics with
  | some (MetricValue.vswr v) =>
    match c.evaluate v with
    | some passed =>
      some { measurement_id := m.id, test_criteria_id := c.id,
             measured_value := some v, passed := passed,
             s_parameter := some s_param }
    | none => none
  | _ => none

/-- Embeds SParametersTestType._evaluate_oob_criterion: requires both band
bounds, computes worst-case rejection over the band of the criterion against
the operational band, swallowing calculation failures (no result). The pass
check tests the Python truthiness of min_value, so a None bound and a 0.0
bound both fail closed. -/
noncomputable def evaluateOobCriterion (c : TestCriteria)
    (network : RFNetwork) (s_param : String) (m : Measurement)
    (op_min op_max : ℚ) : Option TestResult :=
  match c.frequency_min, c.frequency_max with
  | some oob_min, some oob_max =>
    match calculate_oob_rejection network oob_min oob_max op_min op_max s_param with
    | none => none
    | some rejection =>
      let passed : Bool :=
        match c.min_value with
        | none => false
        | some lo => if lo = 0 then false else decide (rejection ≥ lo)
      some { measurement_id := m.id, test_criteria_id := c.id,
             measured_value := some rejection, passed := passed,
             s_parameter := some s_param }
  | _, _ => none

/-- Python substring membership over the character list of a string. -/
def charsContain (pat : List Char) : List Char → Bool
  | [] => pat.isPrefixOf ([] : List Char)
  | c :: rest => pat.isPrefixOf (c :: rest) || charsContain pat rest

/-- Model of the Python expression pat in s. -/
def strContains (s pat : String) : Bool := charsContain pat.data s.data

/-- Model of the Python str.lower call: lowercase character by character. -/
def strToLower (s : String) : String := String.mk (s.data.map Char.toLower)

/-- Embeds SParametersTestType._evaluate_criterion_for_all_s_params: the
requirement name is lowercased and matched against the gain-range, flatness
and VSWR families in that order; otherwise a criterion with a frequency band
is evaluated as OOB; anything else yields no results. Each family fans out
over its S-parameter label list, keeping the labels that produced a result. -/
noncomputable def evaluateCriterionForAllSParams (c : TestCriteria)
    (metrics : List ((String × MetricKind) × MetricValue))
    (network : RFNetwork) (m : Measurement) (op_min op_max : ℚ)
    (gain_s_params vswr_s_params : List String) : List TestResult :=
  let req_name := strToLower c.requirement_name
  if strContains req_name "gain" && strContains req_name "range" then
    gain_s_params.filterMap (fun sp => evaluateGainRangeCriterion c metrics sp m)
  else if strContains req_name "flatness" then
    gain_s_params.filterMap (fun sp => evaluateFlatnessCriterion c metrics sp m)
  else if strContains req_name "vswr" then
    vswr_s_params.filterMap (fun sp => evaluateVswrCriterion c metrics sp m)
  else
    match c.frequency_min, c.frequency_max with
    | some _, some _ =>
      gain_s_params.filterMap (fun sp =>
        evaluateOobCriterion c network sp m op_min op_max)
    | _, _ => []

/-- Embeds SParametersTestType.evaluate_compliance: compute the metrics
dictionary once, resolve the gain and VSWR label sets from the device and
the actual port count, then evaluate every criterion against its applicable
labels, concatenating the per-criterion results. A measurement without
touchstone data raises (none). -/
noncomputable def evaluate_compliance (m : Measurement) (device : Device)
    (test_criteria : List TestCriteria) (op_min op_max : ℚ) :
    Option (List TestResult) :=
  match calculate_metrics m op_min op_max, m.touchstone_data with
  | some metrics, some network =>
    let gain_s_params := device.get_gain_s_parameters network.nports
    let vswr_s_params := device.get_vswr_s_parameters network.nports
    some (test_criteria.flatMap (fun c =>
      evaluateCriterionForAllSParams c metrics network m op_min op_max
        gain_s_params vswr_s_params))
  | _, _ => none

/-! ## Facts about TestCriteria.evaluate -/

theorem evaluate_range_eq (c : TestCriteria) (lo hi : ℝ) (v : ℝ)
    (ht : c.criteria_type = "range") (hlo : c.min_value = some lo)
    (hhi : c.max_value = some hi) :
    c.evaluate v = some (decide (lo ≤ v) && decide (v ≤ hi)) := by
  unfold TestCriteria.evaluate
  rw [ht, hlo, hhi]
  by_cases h : lo ≤ v
  · simp [h]
  · simp [h, decide_eq_false h]

theorem evaluate_min_eq (c : TestCriteria) (lo : ℝ) (v : ℝ)
    (ht : c.criteria_type = "min" ∨ c.criteria_type = "greater_than_equal")
    (hlo : c.min_value = some lo) :
    c.evaluate v = some (decide (lo ≤ v)) := by
  unfold TestCriteria.evaluate
  rcases ht with ht | ht <;> rw [ht, hlo] <;> simp

theorem evaluate_max_eq (c : TestCriteria) (hi : ℝ) (v : ℝ)
    (ht : c.criteria_type = "max" ∨ c.criteria_type = "less_than_equal")
    (hhi : c.max_value = some hi) :
    c.evaluate v = some (decide (v ≤ hi)) := by
  unfold TestCriteria.evaluate
  rcases ht with ht | ht <;> rw [ht, hhi] <;> simp

/-- C1: TestCriteria.evaluate implements the documented predicate per kind:
a range criterion accepts exactly the values between its bounds inclusive,
accepting both endpoints and rejecting every value strictly outside; min and
greater_than_equal accept exactly the values at least the lower bound; max
and less_than_equal accept exactly the values at most the upper bound. -/
theorem C1_evaluate_predicate (c : TestCriteria) (lo hi v : ℝ) :
    (c.criteria_type = "range" → c.min_value = some lo →
      c.max_value = some hi → lo ≤ hi →
      ((c.evaluate v = some true ↔ lo ≤ v ∧ v ≤ hi) ∧
        c.evaluate lo = some true ∧ c.evaluate hi = some true ∧
        (v < lo → c.evaluate v = some false) ∧
        (hi < v → c.evaluate v = some false))) ∧
    ((c.criteria_type = "min" ∨ c.criteria_type = "greater_than_equal") →
      c.min_value = some lo →
      ((c.evaluate v = some true ↔ v ≥ lo) ∧
        (c.evaluate v = some false ↔ v < lo))) ∧
    ((c.criteria_type = "max" ∨ c.criteria_type = "less_than_equal") →
      c.max_value = some hi →
      ((c.evaluate v = some true ↔ v ≤ hi) ∧
        (c.evaluate v = some false ↔ hi < v))) := by
  refine ⟨?_, ?_, ?_⟩
  · intro ht hlo hhi hle
    refine ⟨?_, ?_, ?_, ?_, ?_⟩
    · rw [evaluate_range_eq c lo hi v ht hlo hhi]
      simp [decide_eq_true_eq]
    · rw [evaluate_range_eq c lo hi lo ht hlo hhi]
      simp [decide_eq_true_eq, hle]
    · rw [evaluate_range_eq c lo hi hi ht hlo hhi]
      simp [decide_eq_true_eq, hle]
    · intro hv
      rw [evaluate_range_eq c lo hi v ht hlo hhi]
      simp [decide_eq_false (not_le.mpr hv)]
    · intro hv
      rw [evaluate_range_eq c lo hi v ht hlo hhi]
      simp [decide_eq_false (not_le.mpr hv)]
  · intro ht hlo
    rw [evaluate_min_eq c lo v ht hlo]
    constructor
    · simp [decide_eq_true_eq, ge_iff_le]
    · simp [← not_le]
  · intro ht hhi
    rw [evaluate_max_eq c hi v ht hhi]
    constructor
    · simp [decide_eq_true_eq]
    · simp [← not_le]

/-- Concrete range criterion used by the C1 witness. -/
noncomputable def exampleRangeCriterion : TestCriteria :=
  { id := 1, device_id := 1, test_type := "S-Parameters", test_stage := "SIT",
    requirement_name := "Gain Range", criteria_type := "range",
    min_value := some 27.5, max_value := some 31.3, unit := "dB",
    frequency_min := none, frequency_max := none }

/-- Witness for C1 at the range criterion [27.5, 31.3]: both endpoints pass
and values strictly outside fail. -/
theorem C1_evaluate_predicate_witness :
    exampleRangeCriterion.evaluate 27.5 = some true ∧
    exampleRangeCriterion.evaluate 31.3 = some true ∧
    exampleRangeCriterion.evaluate 27.4 = some false ∧
    exampleRangeCriterion.evaluate 31.4 = some false := by
  have hb : (27.5 : ℝ) ≤ 31.3 := by norm_num
  refine ⟨?_, ?_, ?_, ?_⟩
  · exact ((C1_evaluate_predicate exampleRangeCriterion 27.5 31.3 27.5).1
      rfl rfl rfl hb).2.1
  · exact ((C1_evaluate_predicate exampleRangeCriterion 27.5 31.3 31.3).1
      rfl rfl rfl hb).2.2.1
  · exact ((C1_evaluate_predicate exampleRangeCriterion 27.5 31.3 27.4).1
      rfl rfl rfl hb).2.2.2.1 (by norm_num)
  · exact ((C1_evaluate_predicate exampleRangeCriterion 27.5 31.3 31.4).1
      rfl rfl rfl hb).2.2.2.2 (by norm_num)

/-- C3: whenever the gain-range metric for a label is available and the
criterion evaluates both bounds, the produced result passes exactly when the
windowed minimum gain and the windowed maximum gain each satisfy the
criterion, and the stored measured value is the windowed maximum gain. -/
theorem C3_gain_range_min_and_max (c : TestCriteria)
    (metrics : List ((String × MetricKind) × MetricValue)) (s_param : String)
    (m : Measurement) (min_gain max_gain : ℝ) (min_pass max_pass : Bool)
    (hlook : alookup (s_param, MetricKind.gainRangeKey) metrics =
      some (MetricValue.gainRange min_gain max_gain))
    (hmin : c.evaluate min_gain = some min_pass)
    (hmax : c.evaluate max_gain = some max_pass) :
    evaluateGainRangeCriterion c metrics s_param m =
      some { measurement_id := m.id, test_criteria_id := c.id,
             measured_value := some max_gain,
             passed := min_pass && max_pass,
             s_parameter := some s_param } := by
  simp only [evaluateGainRangeCriterion, hlook, hmin, hmax]

/-- Concrete metrics dictionary used by the C3 witness. -/
noncomputable def exampleMetricsC3 : List ((String × MetricKind) × MetricValue) :=
  [(("S21", MetricKind.gainRangeKey), MetricValue.gainRange 28 31)]

/-- Witness for C3: the [27.5, 31.3] range criterion against a windowed gain
range of [28, 31] produces a passing result whose measured value is 31. -/
theorem C3_gain_range_min_and_max_witness :
    evaluateGainRangeCriterion exampleRangeCriterion exampleMetricsC3 "S21"
      { id := 7, touchstone_data := none } =
      some { measurement_id := 7, test_criteria_id := 1,
             measured_value := some 31, passed := true && true,
             s_parameter := some "S21" } := by
  have h1 : exampleRangeCriterion.evaluate 28 = some true := by
    rw [evaluate_range_eq exampleRangeCriterion 27.5 31.3 28 rfl rfl rfl,
      decide_eq_true (by norm_num : (27.5 : ℝ) ≤ 28),
      decide_eq_true (by norm_num : (28 : ℝ) ≤ 31.3)]
    rfl
  have h2 : exampleRangeCriterion.evaluate 31 = some true := by
    rw [evaluate_range_eq exampleRangeCriterion 27.5 31.3 31 rfl rfl rfl,
      decide_eq_true (by norm_num : (27.5 : ℝ) ≤ 31),
      decide_eq_true (by norm_num : (31 : ℝ) ≤ 31.3)]
    rfl
  exact C3_gain_range_min_and_max exampleRangeCriterion exampleMetricsC3 "S21"
    { id := 7, touchstone_data := none } 28 31 true true rfl h1 h2

/-- C8: criterion classification. A criterion whose lowercased name matches
none of the gain-range, flatness and VSWR families and that has no frequency
band produces no results at all; otherwise the first matching family in that
fixed order decides the evaluation, name families before the band family. -/
theorem C8_classification (c : TestCriteria)
    (metrics : List ((String × MetricKind) × MetricValue))
    (network : RFNetwork) (m : Measurement) (op_min op_max : ℚ)
    (gain_s_params vswr_s_params : List String) :
    ((strContains (strToLower c.requirement_name) "gain" = false ∨
        strContains (strToLower c.requirement_name) "range" = false) →
      strContains (strToLower c.requirement_name) "flatness" = false →
      strContains (strToLower c.requirement_name) "vswr" = false →
      (c.frequency_min = none ∨ c.frequency_max = none) →
      evaluateCriterionForAllSParams c metrics network m op_min op_max
        gain_s_params vswr_s_params = []) ∧
    (strContains (strToLower c.requirement_name) "gain" = true →
      strContains (strToLower c.requirement_name) "range" = true →
      evaluateCriterionForAllSParams c metrics network m op_min op_max
        gain_s_params vswr_s_params =
        gain_s_params.filterMap
          (fun sp => evaluateGainRangeCriterion c metrics sp m)) ∧
    ((strContains (strToLower c.requirement_name) "gain" = false ∨
        strContains (strToLower c.requirement_name) "range" = false) →
      strContains (strToLower c.requirement_name) "flatness" = true →
      evaluateCriterionForAllSParams c metrics network m op_min op_max
        gain_s_params vswr_s_params =
        gain_s_params.filterMap
          (fun sp => evaluateFlatnessCriterion c metrics sp m)) ∧
    ((strContains (strToLower c.requirement_name) "gain" = false ∨
        strContains (strToLower c.requirement_name) "range" = false) →
      strContains (strToLower c.requirement_name) "flatness" = false →
      strContains (strToLower c.requirement_name) "vswr" = true →
      evaluateCriterionForAllSParams c metrics network m op_min op_max
        gain_s_params vswr_s_params =
        vswr_s_params.filterMap
          (fun sp => evaluateVswrCriterion c metrics sp m)) ∧
    (∀ oob_min oob_max : ℚ,
      (strContains (strToLower c.requirement_name) "gain" = false ∨
        strContains (strToLower c.requirement_name) "range" = false) →
      strContains (strToLower c.requirement_name) "flatness" = false →
      strContains (strToLower c.requirement_name) "vswr" = false →
      c.frequency_min = some oob_min → c.frequency_max = some oob_max →
      evaluateCriterionForAllSParams c metrics network m op_min op_max
        gain_s_params vswr_s_params =
        gain_s_params.filterMap
          (fun sp => evaluateOobCriterion c network sp m op_min op_max)) := by
  refine ⟨?_, ?_, ?_, ?_, ?_⟩
  · intro hgr hfl hv hband
    have hgr2 : (strContains (strToLower c.requirement_name) "gain" &&
        strContains (strToLower c.requirement_name) "range") = false := by
      rcases hgr with h | h <;> simp [h]
    rcases hband with h | h
    · rcases hfm : c.frequency_max with _ | fh <;>
        simp [evaluateCriterionForAllSParams, hgr2, hfl, hv, h, hfm]
    · rcases hfm : c.frequency_min with _ | fl <;>
        simp [evaluateCriterionForAllSParams, hgr2, hfl, hv, h, hfm]
  · intro hg hr
    simp [evaluateCriterionForAllSParams, hg, hr]
  · intro hgr hfl
    have hgr2 : (strContains (strToLower c.requirement_name) "gain" &&
        strContains (strToLower c.requirement_name) "range") = false := by
      rcases hgr with h | h <;> simp [h]
    simp [evaluateCriterionForAllSParams, hgr2, hfl]
  · intro hgr hfl hv
    have hgr2 : (strContains (strToLower c.requirement_name) "gain" &&
        strContains (strToLower c.requirement_name) "range") = false := by
      rcases hgr with h | h <;> simp [h]
    simp [evaluateCriterionForAllSParams, hgr2, hfl, hv]
  · intro oob_min oob_max hgr hfl hv hmin hmax
    have hgr2 : (strContains (strToLower c.requirement_name) "gain" &&
        strContains (strToLower c.requirement_name) "range") = false := by
      rcases hgr with h | h <;> simp [h]
    simp [evaluateCriterionForAllSParams, hgr2, hfl, hv, hmin, hmax]

/-- Concrete unrecognized criterion for the C8 witness: the name matches no
family and no band is set, so it must yield zero results. -/
noncomputable def exampleUnrecognizedCriterion : TestCriteria :=
  { id := 2, device_id := 1, test_type := "S-Parameters", test_stage := "SIT",
    requirement_name := "Phase Balance", criteria_type := "max",
    min_value := none, max_value := some 5, unit := "deg",
    frequency_min := none, frequency_max := none }

/-- Witness for C8: an unrecognized criterion produces zero results, and a
name matching the gain-range family routes to the gain-range fan-out even
though it also mentions vswr. -/
theorem C8_classification_witness :
    evaluateCriterionForAllSParams exampleUnrecognizedCriterion []
      { freqs := [], nports := 0, s := [] }
      { id := 7, touchstone_data := none } 1 2 ["S21"] ["S11"] = [] ∧
    evaluateCriterionForAllSParams
      { exampleUnrecognizedCriterion with requirement_name := "Gain Range vswr" }
      [] { freqs := [], nports := 0, s := [] }
      { id := 7, touchstone_data := none } 1 2 ["S21"] ["S11"] =
      ["S21"].filterMap (fun sp => evaluateGainRangeCriterion
        { exampleUnrecognizedCriterion with requirement_name := "Gain Range vswr" }
        [] sp { id := 7, touchstone_data := none }) := by
  constructor
  · exact (C8_classification exampleUnrecognizedCriterion []
      { freqs := [], nports := 0, s := [] }
      { id := 7, touchstone_data := none } 1 2 ["S21"] ["S11"]).1
      (Or.inl (by decide)) (by decide) (by decide) (Or.inl rfl)
  · exact (C8_classification _ [] { freqs := [], nports := 0, s := [] }
      { id := 7, touchstone_data := none } 1 2 ["S21"] ["S11"]).2.1
      (by decide) (by decide)

/-! ## Facts about the OOB pass rule -/

theorem oobResult_eq (c : TestCriteria) (network : RFNetwork) (s_param : String)
    (m : Measurement) (op_min op_max oob_min oob_max : ℚ) (rejection : ℝ)
    (hfl : c.frequency_min = some oob_min) (hfh : c.frequency_max = some oob_max)
    (hrej : calculate_oob_rejection network oob_min oob_max op_min op_max s_param =
      some rejection) :
    evaluateOobCriterion c network s_param m op_min op_max =
      some { measurement_id := m.id, test_criteria_id := c.id,
             measured_value := some rejection,
             passed := match c.min_value with
               | none => false
               | some lo => if lo = 0 then false else decide (rejection ≥ lo),
             s_parameter := some s_param } := by
  simp only [evaluateOobCriterion, hfl, hfh, hrej]

theorem oobResult_fail_closed (c : TestCriteria) (network : RFNetwork)
    (s_param : String) (m : Measurement) (op_min op_max oob_min oob_max : ℚ)
    (rejection : ℝ) (hmin : c.min_value = none ∨ c.min_value = some 0)
    (hfl : c.frequency_min = some oob_min) (hfh : c.frequency_max = some oob_max)
    (hrej : calculate_oob_rejection network oob_min oob_max op_min op_max s_param =
      some rejection) :
    evaluateOobCriterion c network s_param m op_min op_max =
      some { measurement_id := m.id, test_criteria_id := c.id,
             measured_value := some rejection, passed := false,
             s_parameter := some s_param } := by
  rw [oobResult_eq c network s_param m op_min op_max oob_min oob_max rejection
    hfl hfh hrej]
  rcases hmin with h0 | h0 <;> simp [h0]

theorem oobResult_truthy (c : TestCriteria) (network : RFNetwork)
    (s_param : String) (m : Measurement) (op_min op_max oob_min oob_max : ℚ)
    (rejection lo : ℝ) (hmin : c.min_value = some lo) (hne : lo ≠ 0)
    (hfl : c.frequency_min = some oob_min) (hfh : c.frequency_max = some oob_max)
    (hrej : calculate_oob_rejection network oob_min oob_max op_min op_max s_param =
      some rejection) :
    evaluateOobCriterion c network s_param m op_min op_max =
      some { measurement_id := m.id, test_criteria_id := c.id,
             measured_value := some rejection,
             passed := decide (rejection ≥ lo),
             s_parameter := some s_param } := by
  rw [oobResult_eq c network s_param m op_min op_max oob_min oob_max rejection
    hfl hfh hrej]
  simp [hmin, hne]

/-! ## Concrete data for the OOB witnesses -/

/-- A 1-port 2-point network, constant S11 = 1 + 0i, sweeping 1 to 3 GHz. -/
def exampleNetworkC5 : RFNetwork :=
  { freqs := [1e9, 3e9], nports := 1, s := [[[(1, 0)]], [[(1, 0)]]] }

/-- The measurement wrapping that network. -/
def exampleMeasurementC5 : Measurement :=
  { id := 5, touchstone_data := some exampleNetworkC5 }

theorem exampleNetworkC5_filter_op :
    filter_frequency_range exampleNetworkC5 1 1 =
      { freqs := [1000000000], nports := 1, s := [[[(1, 0)]]] } := by
  norm_num [filter_frequency_range, exampleNetworkC5, clampQ, minVal, maxVal,
    sortedDedup, insertSorted, interpNetwork, interpPoint, sTrace, sEntry,
    maskNetwork, interp1, List.filter, List.zip, List.zipWith,
    List.range_succ, List.cons_ne_nil]

theorem exampleNetworkC5_filter_oob :
    filter_frequency_range exampleNetworkC5 2 3 =
      { freqs := [2000000000, 3000000000], nports := 1,
        s := [[[(1, 0)]], [[(1, 0)]]] } := by
  norm_num [filter_frequency_range, exampleNetworkC5, clampQ, minVal, maxVal,
    sortedDedup, insertSorted, interpNetwork, interpPoint, sTrace, sEntry,
    maskNetwork, interp1, List.filter, List.zip, List.zipWith,
    List.range_succ, List.cons_ne_nil]

/-- The constant network has equal gain at every point, so the worst-case
rejection the calculator computes for S11 with OOB band [2, 3] GHz against
operational band [1, 1] GHz is exactly 0 dBc. -/
theorem exampleRejectionC5_eval :
    calculate_oob_rejection exampleNetworkC5 2 3 1 1 "S11" = some 0 := by
  have hp : parseSParam "S11" = some (1, 1) := rfl
  simp only [calculate_oob_rejection, calculate_lowest_in_band_gain,
    calculate_gain_range, calculate_gain, exampleNetworkC5_filter_op,
    exampleNetworkC5_filter_oob, hp]
  norm_num [resolveIdx, sEntry, minVal, maxVal, Option.bind]

/-- OOB criterion whose lower bound is exactly 0.0 dBc, of type min. -/
noncomputable def exampleZeroOobCriterion : TestCriteria :=
  { id := 3, device_id := 1, test_type := "S-Parameters", test_stage := "SIT",
    requirement_name := "OOB 1", criteria_type := "min",
    min_value := some 0, max_value := none, unit := "dBc",
    frequency_min := some 2, frequency_max := some 3 }

/-- OOB criterion demanding at least 60 dBc. -/
noncomputable def exampleOob60Criterion : TestCriteria :=
  { exampleZeroOobCriterion with id := 4, min_value := some 60 }

/-- Counterexample for C5 as stated: a validated OOB criterion whose lower
bound is exactly 0.0 dBc produces a failed result even though the computed
rejection (0 dBc) does satisfy rejection ≥ lower, because the pass check
tests the Python truthiness of the bound rather than comparing it to None. -/
theorem C5_oob_pass_rule_counterexample :
    validateCriteria exampleZeroOobCriterion = true ∧
    exampleZeroOobCriterion.min_value = some 0 ∧
    evaluateOobCriterion exampleZeroOobCriterion exampleNetworkC5 "S11"
      exampleMeasurementC5 1 1 =
      some { measurement_id := 5, test_criteria_id := 3,
             measured_value := some 0, passed := false,
             s_parameter := some "S11" } ∧
    ((0 : ℝ) ≥ 0) := by
  refine ⟨?_, rfl, ?_, le_refl 0⟩
  · norm_num [validateCriteria, exampleZeroOobCriterion]
    decide
  · exact oobResult_fail_closed exampleZeroOobCriterion exampleNetworkC5 "S11"
      exampleMeasurementC5 1 1 2 3 0 (Or.inr rfl) rfl rfl
      exampleRejectionC5_eval

/-- C5 amended: for an OOB-family evaluation, when the lower bound is
present and nonzero the produced result has passed = (rejection ≥ lower);
a None lower bound fails closed (as does the 0.0 truthiness corner case of
C10, which the as-stated claim misses). -/
theorem C5_oob_pass_rule (c : TestCriteria) (network : RFNetwork)
    (s_param : String) (m : Measurement) (op_min op_max oob_min oob_max : ℚ)
    (rejection : ℝ)
    (hfl : c.frequency_min = some oob_min)
    (hfh : c.frequency_max = some oob_max)
    (hrej : calculate_oob_rejection network oob_min oob_max op_min op_max
      s_param = some rejection) :
    (∀ lo : ℝ, c.min_value = some lo → lo ≠ 0 →
      evaluateOobCriterion c network s_param m op_min op_max =
        some { measurement_id := m.id, test_criteria_id := c.id,
               measured_value := some rejection,
               passed := decide (rejection ≥ lo),
               s_parameter := some s_param }) ∧
    (c.min_value = none →
      evaluateOobCriterion c network s_param m op_min op_max =
        some { measurement_id := m.id, test_criteria_id := c.id,
               measured_value := some rejection, passed := false,
               s_parameter := some s_param }) := by
  constructor
  · intro lo hlo hne
    exact oobResult_truthy c network s_param m op_min op_max oob_min oob_max
      rejection lo hlo hne hfl hfh hrej
  · intro hlo
    exact oobResult_fail_closed c network s_param m op_min op_max oob_min
      oob_max rejection (Or.inl hlo) hfl hfh hrej

/-- Witness for the amended C5: a 60 dBc requirement against the constant
network (0 dBc worst-case rejection) yields passed = (0 ≥ 60). -/
theorem C5_oob_pass_rule_witness :
    evaluateOobCriterion exampleOob60Criterion exampleNetworkC5 "S11"
      exampleMeasurementC5 1 1 =
      some { measurement_id := 5, test_criteria_id := 4,
             measured_value := some 0, passed := decide ((0 : ℝ) ≥ 60),
             s_parameter := some "S11" } :=
  (C5_oob_pass_rule exampleOob60Criterion exampleNetworkC5 "S11"
    exampleMeasurementC5 1 1 2 3 0 rfl rfl exampleRejectionC5_eval).1 60 rfl
    (by norm_num)

/-- C10: construction-time validation permits a 0.0 lower bound for min,
greater_than_equal and range criteria, and the OOB pass check tests Python
truthiness of the bound, so every OOB result produced for a criterion whose
lower bound is exactly 0.0 has passed = false regardless of the computed
rejection. -/
theorem C10_zero_lower_fails_closed :
    (∀ (c : TestCriteria) (network : RFNetwork) (s_param : String)
        (m : Measurement) (op_min op_max oob_min oob_max : ℚ) (rejection : ℝ),
      c.min_value = some 0 →
      c.frequency_min = some oob_min → c.frequency_max = some oob_max →
      calculate_oob_rejection network oob_min oob_max op_min op_max s_param =
        some rejection →
      evaluateOobCriterion c network s_param m op_min op_max =
        some { measurement_id := m.id, test_criteria_id := c.id,
               measured_value := some rejection, passed := false,
               s_parameter := some s_param }) ∧
    validateCriteria exampleZeroOobCriterion = true ∧
    validateCriteria { exampleZeroOobCriterion with
      criteria_type := "greater_than_equal" } = true ∧
    validateCriteria { exampleZeroOobCriterion with
      criteria_type := "range", max_value := some 31.3 } = true := by
  refine ⟨?_, ?_, ?_, ?_⟩
  · intro c network s_param m op_min op_max oob_min oob_max rejection
      hzero hfl hfh hrej
    exact oobResult_fail_closed c network s_param m op_min op_max oob_min
      oob_max rejection (Or.inr hzero) hfl hfh hrej
  · norm_num [validateCriteria, exampleZeroOobCriterion]
    decide
  · norm_num [validateCriteria, exampleZeroOobCriterion]
    decide
  · norm_num [validateCriteria, exampleZeroOobCriterion]

/-- Witness for C10: the validated 0.0 dBc OOB criterion fails against the
constant network although its rejection, 0 dBc, is not below the bound. -/
theorem C10_zero_lower_fails_closed_witness :
    evaluateOobCriterion exampleZeroOobCriterion exampleNetworkC5 "S11"
      exampleMeasurementC5 1 1 =
      some { measurement_id := 5, test_criteria_id := 3,
             measured_value := some 0, passed := false,
             s_parameter := some "S11" } :=
  C10_zero_lower_fails_closed.1 exampleZeroOobCriterion exampleNetworkC5
    "S11" exampleMeasurementC5 1 1 2 3 0 rfl rfl rfl exampleRejectionC5_eval

/-! ## Label format (claim C6) -/

/-- The exact label shape the specification describes: the letter S followed
by exactly two decimal digits and nothing else. -/
def isExactForm (sp : String) : Bool :=
  match sp.data with
  | [c, c₁, c₂] => (c == 'S') && c₁.isDigit && c₂.isDigit
  | _ => false

/-- The shape the code actually accepts: the label merely starts with S and
two decimal digits; any trailing characters are ignored because re.match is
unanchored at the end. -/
def isPrefixForm (sp : String) : Bool :=
  match sp.data with
  | c :: c₁ :: c₂ :: _ => (c == 'S') && c₁.isDigit && c₂.isDigit
  | _ => false

/-- A 2-port single-point network for the label counterexample. -/
def exampleNetworkC6 : RFNetwork :=
  { freqs := [1000000000], nports := 2,
    s := [[[(1, 0), (0, 0)], [(0, 0), (1, 0)]]] }

/-- Counterexample for C6 as stated: the label S21! is not exactly of the
form S digit digit, yet calculate_gain accepts it (no FormatError), because
the regular expression is anchored only at the start. -/
theorem C6_label_format_counterexample :
    isExactForm "S21!" = false ∧
    parseSParam "S21!" = some (2, 1) ∧
    calculate_gain exampleNetworkC6 "S21!" = some [db20 (0, 0)] := by
  refine ⟨rfl, rfl, ?_⟩
  rfl

/-- C6 amended: the label parse of calculate_gain succeeds exactly on labels
that start with S followed by two decimal digits (trailing characters are
ignored); a failed parse makes calculate_gain fail for every network, and
every label exactly of the form S digit digit parses successfully. -/
theorem C6_label_format (sp : String) (network : RFNetwork) :
    ((parseSParam sp).isSome = isPrefixForm sp) ∧
    (parseSParam sp = none → calculate_gain network sp = none) ∧
    (isExactForm sp = true → (parseSParam sp).isSome = true) := by
  refine ⟨?_, ?_, ?_⟩
  · unfold parseSParam isPrefixForm
    rcases hd : sp.data with _ | ⟨c, _ | ⟨c₁, _ | ⟨c₂, rest⟩⟩⟩
    · rfl
    · rfl
    · rfl
    · cases hb : ((c == 'S') && c₁.isDigit && c₂.isDigit) <;> simp [hb]
  · intro hp
    unfold calculate_gain
    rw [hp]
    rfl
  · intro hx
    unfold isExactForm at hx
    unfold parseSParam
    rcases hd : sp.data with _ | ⟨c, _ | ⟨c₁, _ | ⟨c₂, _ | ⟨c₃, rest⟩⟩⟩⟩ <;>
      rw [hd] at hx
    · cases hx
    · cases hx
    · cases hx
    · simp only [Bool.and_eq_true, beq_iff_eq] at hx
      obtain ⟨⟨h1, h2⟩, h3⟩ := hx
      subst h1
      simp [h2, h3]
    · cases hx

/-- Witness for the amended C6: a malformed label fails for a concrete
network and an exact-form label parses. -/
theorem C6_label_format_witness :
    calculate_gain exampleNetworkC6 "X21" = none ∧
    (parseSParam "S34").isSome = true := by
  constructor
  · exact (C6_label_format "X21" exampleNetworkC6).2.1 rfl
  · exact (C6_label_format "S34" exampleNetworkC6).2.2 rfl

/-- C2: calculate_oob_rejection returns the minimum, over the points of the
OOB-windowed network, of (lowest in-band gain minus the OOB gain at that
point), where the lowest in-band gain is the minimum of the gain over the
operational window; the returned scalar is the worst-case rejection. -/
theorem C2_oob_rejection_formula (network : RFNetwork)
    (oob_min oob_max op_min op_max : ℚ) (s_param : String)
    (g_op g_oob : List ℝ) (lowest : ℝ)
    (hop : calculate_gain (filter_frequency_range network op_min op_max)
      s_param = some g_op)
    (hoob : calculate_gain (filter_frequency_range network oob_min oob_max)
      s_param = some g_oob)
    (hlow : minVal g_op = some lowest) :
    calculate_oob_rejection network oob_min oob_max op_min op_max s_param =
      minVal (g_oob.map (fun g => lowest - g)) := by
  have hne : g_op ≠ [] := by
    intro h
    rw [h] at hlow
    cases hlow
  rcases maxVal_isSome hne with ⟨mx, hmx⟩
  simp only [calculate_oob_rejection, calculate_lowest_in_band_gain,
    calculate_gain_range, hop, hoob, hlow, hmx, Option.bind_eq_bind,
    Option.some_bind, Option.map_some']

/-- Witness for C2 on the constant 1-port network: the operational window
holds one point, the OOB window two, and the rejection is the minimum of
the two per-point differences. -/
theorem C2_oob_rejection_formula_witness :
    calculate_oob_rejection exampleNetworkC5 2 3 1 1 "S11" =
      minVal ([db20 (1, 0), db20 (1, 0)].map (fun g => db20 (1, 0) - g)) := by
  have hp : parseSParam "S11" = some (1, 1) := rfl
  have hop : calculate_gain (filter_frequency_range exampleNetworkC5 1 1)
      "S11" = some [db20 (1, 0)] := by
    rw [exampleNetworkC5_filter_op]
    norm_num [calculate_gain, hp, resolveIdx, sEntry]
  have hoob : calculate_gain (filter_frequency_range exampleNetworkC5 2 3)
      "S11" = some [db20 (1, 0), db20 (1, 0)] := by
    rw [exampleNetworkC5_filter_oob]
    norm_num [calculate_gain, hp, resolveIdx, sEntry]
  exact C2_oob_rejection_formula exampleNetworkC5 2 3 1 1 "S11"
    [db20 (1, 0)] [db20 (1, 0), db20 (1, 0)] (db20 (1, 0)) hop hoob rfl

/-! ## Structure of the frequency window (claim C9) -/

/-- The clamped lower Hz bound filter_frequency_range works with. -/
def targetLo (network : RFNetwork) (freq_min freq_max : ℚ) : ℚ :=
  clampQ (if freq_min * 1e9 > freq_max * 1e9 then freq_max * 1e9
          else freq_min * 1e9)
    ((minVal network.freqs).getD 0) ((maxVal network.freqs).getD 0)

/-- The clamped upper Hz bound filter_frequency_range works with. -/
def targetHi (network : RFNetwork) (freq_min freq_max : ℚ) : ℚ :=
  clampQ (if freq_min * 1e9 > freq_max * 1e9 then freq_min * 1e9
          else freq_max * 1e9)
    ((minVal network.freqs).getD 0) ((maxVal network.freqs).getD 0)

/-- The target frequency grid filter_frequency_range interpolates onto. -/
def targetsOf (network : RFNetwork) (freq_min freq_max : ℚ) : List ℚ :=
  sortedDedup ((network.freqs.filter (fun f =>
    decide (targetLo network freq_min freq_max ≤ f ∧
      f ≤ targetHi network freq_min freq_max))) ++
    [targetLo network freq_min freq_max, targetHi network freq_min freq_max])

theorem filter_frequency_range_eq (network : RFNetwork)
    (freq_min freq_max : ℚ) (hne : network.freqs ≠ []) :
    filter_frequency_range network freq_min freq_max =
      maskNetwork (interpNetwork network (targetsOf network freq_min freq_max))
        (targetLo network freq_min freq_max - 1e-9)
        (targetHi network freq_min freq_max + 1e-9) := by
  unfold filter_frequency_range
  rw [if_neg hne]
  rfl

theorem targetLo_le_targetHi (network : RFNetwork) (freq_min freq_max : ℚ)
    (hne : network.freqs ≠ []) :
    targetLo network freq_min freq_max ≤ targetHi network freq_min freq_max := by
  rcases minVal_isSome hne with ⟨m, hm⟩
  rcases maxVal_isSome hne with ⟨M, hM⟩
  have hmM : m ≤ M := le_maxVal hM (minVal_mem hm)
  unfold targetLo targetHi clampQ
  rw [hm, hM]
  by_cases h : freq_min * 1e9 > freq_max * 1e9
  · rw [if_pos h, if_pos h]
    simp only [Option.getD_some]
    exact min_le_min (max_le_max (le_of_lt h) (le_refl m)) (le_refl M)
  · rw [if_neg h, if_neg h]
    simp only [Option.getD_some]
    exact min_le_min (max_le_max (not_lt.mp h) (le_refl m)) (le_refl M)

theorem mem_targetsOf {network : RFNetwork} {freq_min freq_max : ℚ} {x : ℚ} :
    x ∈ targetsOf network freq_min freq_max ↔
      ((x ∈ network.freqs ∧ targetLo network freq_min freq_max ≤ x ∧
          x ≤ targetHi network freq_min freq_max) ∨
        x = targetLo network freq_min freq_max ∨
        x = targetHi network freq_min freq_max) := by
  unfold targetsOf
  rw [mem_sortedDedup, List.mem_append, List.mem_filter]
  simp [decide_eq_true_eq]

theorem targetLo_mem_targetsOf (network : RFNetwork) (freq_min freq_max : ℚ) :
    targetLo network freq_min freq_max ∈ targetsOf network freq_min freq_max :=
  mem_targetsOf.mpr (Or.inr (Or.inl rfl))

theorem targetHi_mem_targetsOf (network : RFNetwork) (freq_min freq_max : ℚ) :
    targetHi network freq_min freq_max ∈ targetsOf network freq_min freq_max :=
  mem_targetsOf.mpr (Or.inr (Or.inr rfl))

theorem targetsOf_bounds {network : RFNetwork} {freq_min freq_max : ℚ}
    (hne : network.freqs ≠ []) {x : ℚ}
    (hx : x ∈ targetsOf network freq_min freq_max) :
    targetLo network freq_min freq_max ≤ x ∧
      x ≤ targetHi network freq_min freq_max := by
  rcases mem_targetsOf.mp hx with ⟨_, h1, h2⟩ | rfl | rfl
  · exact ⟨h1, h2⟩
  · exact ⟨le_refl _, targetLo_le_targetHi network freq_min freq_max hne⟩
  · exact ⟨targetLo_le_targetHi network freq_min freq_max hne, le_refl _⟩

theorem targetsOf_pairwise (network : RFNetwork) (freq_min freq_max : ℚ) :
    (targetsOf network freq_min freq_max).Pairwise (· < ·) :=
  pairwise_sortedDedup _

theorem maskNetwork_eq_self (M : RFNetwork) (lo hi : ℚ)
    (hlen : M.s.length = M.freqs.length)
    (hall : ∀ f ∈ M.freqs, lo ≤ f ∧ f ≤ hi) :
    maskNetwork M lo hi = M := by
  rcases M with ⟨freqs, n, s⟩
  simp only at hlen hall
  have hfilter : (freqs.zip s).filter
      (fun p => decide (lo ≤ p.1 ∧ p.1 ≤ hi)) = freqs.zip s := by
    rw [List.filter_eq_self]
    intro p hp
    rcases p with ⟨a, b⟩
    exact decide_eq_true (hall a (List.of_mem_zip hp).1)
  unfold maskNetwork
  simp only
  rw [hfilter, List.map_fst_zip _ _ (le_of_eq hlen.symm),
    List.map_snd_zip _ _ (le_of_eq hlen)]

theorem filter_eq_interpNetwork (network : RFNetwork)
    (freq_min freq_max : ℚ) (hne : network.freqs ≠ []) :
    filter_frequency_range network freq_min freq_max =
      interpNetwork network (targetsOf network freq_min freq_max) := by
  rw [filter_frequency_range_eq network freq_min freq_max hne]
  apply maskNetwork_eq_self
  · show ((targetsOf network freq_min freq_max).map _).length =
      (targetsOf network freq_min freq_max).length
    rw [List.length_map]
  · intro f hf
    have hb := targetsOf_bounds hne hf
    have heps : (0 : ℚ) < 1e-9 := by norm_num
    constructor
    · linarith [hb.1]
    · linarith [hb.2]

theorem filter_freqs_eq (network : RFNetwork) (freq_min freq_max : ℚ)
    (hne : network.freqs ≠ []) :
    (filter_frequency_range network freq_min freq_max).freqs =
      targetsOf network freq_min freq_max := by
  rw [filter_eq_interpNetwork network freq_min freq_max hne]
  rfl

theorem filter_head (network : RFNetwork) (freq_min freq_max : ℚ)
    (hne : network.freqs ≠ []) :
    (filter_frequency_range network freq_min freq_max).freqs.head? =
      some (targetLo network freq_min freq_max) := by
  rw [filter_freqs_eq network freq_min freq_max hne]
  exact head?_of_least (targetsOf_pairwise network freq_min freq_max)
    (targetLo_mem_targetsOf network freq_min freq_max)
    (fun y hy => (targetsOf_bounds hne hy).1)

theorem filter_last (network : RFNetwork) (freq_min freq_max : ℚ)
    (hne : network.freqs ≠ []) :
    (filter_frequency_range network freq_min freq_max).freqs.getLast? =
      some (targetHi network freq_min freq_max) := by
  rw [filter_freqs_eq network freq_min freq_max hne]
  exact getLast?_of_greatest (targetsOf_pairwise network freq_min freq_max)
    (targetHi_mem_targetsOf network freq_min freq_max)
    (fun y hy => (targetsOf_bounds hne hy).2)

theorem targetLo_of_domain (network : RFNetwork) (freq_min freq_max : ℚ)
    (hle : freq_min ≤ freq_max)
    (hlo : (minVal network.freqs).getD 0 ≤ freq_min * 1e9)
    (hhi : freq_max * 1e9 ≤ (maxVal network.freqs).getD 0) :
    targetLo network freq_min freq_max = freq_min * 1e9 := by
  have hmul : freq_min * 1e9 ≤ freq_max * 1e9 := by
    have : (0 : ℚ) < 1e9 := by norm_num
    exact mul_le_mul_of_nonneg_right hle (le_of_lt this)
  unfold targetLo clampQ
  rw [if_neg (not_lt.mpr hmul)]
  rw [max_eq_left hlo]
  exact min_eq_left (le_trans hmul hhi)

theorem targetHi_of_domain (network : RFNetwork) (freq_min freq_max : ℚ)
    (hle : freq_min ≤ freq_max)
    (hlo : (minVal network.freqs).getD 0 ≤ freq_min * 1e9)
    (hhi : freq_max * 1e9 ≤ (maxVal network.freqs).getD 0) :
    targetHi network freq_min freq_max = freq_max * 1e9 := by
  have hmul : freq_min * 1e9 ≤ freq_max * 1e9 := by
    have : (0 : ℚ) < 1e9 := by norm_num
    exact mul_le_mul_of_nonneg_right hle (le_of_lt this)
  unfold targetHi clampQ
  rw [if_neg (not_lt.mpr hmul)]
  rw [max_eq_left (le_trans hlo hmul)]
  exact min_eq_left hhi

theorem getD_map_range {β : Type} (n i : ℕ) (f : ℕ → β) (d : β) (h : i < n) :
    ((List.range n).map f).getD i d = f i := by
  rw [List.getD_eq_getElem?_getD]
  rw [List.getElem?_eq_getElem (by simpa using h)]
  simp

theorem sTrace_interpNetwork (network : RFNetwork) (T : List ℚ) (i j : ℕ)
    (hi : i < network.nports) (hj : j < network.nports) :
    sTrace (interpNetwork network T) i j =
      T.map (fun t => (t, interpPoint network i j t)) := by
  show T.zip ((T.map _).map (fun m => sEntry m i j)) = _
  rw [List.map_map]
  have h1 : ((fun m => sEntry m i j) ∘ fun t =>
      (List.range network.nports).map (fun i₂ =>
        (List.range network.nports).map
          (fun j₂ => interpPoint network i₂ j₂ t))) =
      fun t => interpPoint network i j t := by
    funext t
    show sEntry _ i j = _
    unfold sEntry
    rw [getD_map_range _ _ _ _ hi, getD_map_range _ _ _ _ hj]
  rw [h1]
  have h2 := List.zip_map' id (fun t => interpPoint network i j t) T
  rw [List.map_id] at h2
  exact h2

theorem interpPoint_grid (network : RFNetwork) (T : List ℚ) (i j : ℕ)
    (hi : i < network.nports) (hj : j < network.nports)
    (hT : T.Pairwise (· < ·)) {t : ℚ} (ht : t ∈ T) :
    interpPoint (interpNetwork network T) i j t = interpPoint network i j t := by
  have key : ∀ f : ℚ → ℚ, interp1 (T.map (fun t₂ => (t₂, f t₂))) t = f t := by
    intro f
    have hfst : ((T.map (fun t₂ => (t₂, f t₂))).map Prod.fst).Pairwise (· < ·) := by
      have he : (T.map (fun t₂ => (t₂, f t₂))).map Prod.fst = T := by
        rw [List.map_map]
        exact List.map_id T
      rw [he]
      exact hT
    exact interp1_grid _ hfst (t, f t) (List.mem_map_of_mem _ ht)
  show (interp1 ((sTrace (interpNetwork network T) i j).map
      (fun p => (p.1, p.2.1))) t,
    interp1 ((sTrace (interpNetwork network T) i j).map
      (fun p => (p.1, p.2.2))) t) = interpPoint network i j t
  rw [sTrace_interpNetwork network T i j hi hj, List.map_map, List.map_map]
  have e1 : ((fun p : ℚ × (ℚ × ℚ) => (p.1, p.2.1)) ∘
      fun t₂ => (t₂, interpPoint network i j t₂)) =
      fun t₂ => (t₂, (interpPoint network i j t₂).1) := rfl
  have e2 : ((fun p : ℚ × (ℚ × ℚ) => (p.1, p.2.2)) ∘
      fun t₂ => (t₂, interpPoint network i j t₂)) =
      fun t₂ => (t₂, (interpPoint network i j t₂).2) := rfl
  rw [e1, e2, key (fun t₂ => (interpPoint network i j t₂).1),
    key (fun t₂ => (interpPoint network i j t₂).2)]

theorem interpNetwork_grid (network : RFNetwork) (T : List ℚ)
    (hT : T.Pairwise (· < ·)) :
    interpNetwork (interpNetwork network T) T = interpNetwork network T := by
  refine congrArg (RFNetwork.mk T network.nports) ?_
  apply List.map_congr_left
  intro t ht
  apply List.map_congr_left
  intro i hi
  apply List.map_congr_left
  intro j hj
  exact interpPoint_grid network T i j (List.mem_range.mp hi)
    (List.mem_range.mp hj) hT ht

theorem maxVal_mem {α : Type} [LinearOrder α] :
    ∀ {l : List α} {m : α}, maxVal l = some m → m ∈ l := by
  intro l
  induction l with
  | nil => intro m hm; cases hm
  | cons x xs ih =>
    intro m hm
    cases xs with
    | nil =>
      simp only [maxVal, Option.some.injEq] at hm
      subst hm
      exact List.mem_singleton.mpr rfl
    | cons z zs =>
      rcases hrec : maxVal (z :: zs) with _ | m₂
      · rw [maxVal, hrec] at hm; cases hm
      · rw [maxVal, hrec] at hm
        simp only [Option.map_some', Option.some.injEq] at hm
        subst hm
        rcases max_choice x m₂ with hc | hc
        · rw [hc]; exact List.mem_cons_self _ _
        · rw [hc]; exact List.mem_cons_of_mem _ (ih hrec)

theorem minVal_of_least {l : List ℚ} {x : ℚ} (hmem : x ∈ l)
    (hle : ∀ y ∈ l, x ≤ y) : minVal l = some x := by
  have hne : l ≠ [] := by
    intro h
    rw [h] at hmem
    cases hmem
  rcases minVal_isSome hne with ⟨m, hm⟩
  rw [hm]
  exact congrArg some (le_antisymm (minVal_le hm hmem) (hle m (minVal_mem hm)))

theorem maxVal_of_greatest {l : List ℚ} {x : ℚ} (hmem : x ∈ l)
    (hge : ∀ y ∈ l, y ≤ x) : maxVal l = some x := by
  have hne : l ≠ [] := by
    intro h
    rw [h] at hmem
    cases hmem
  rcases maxVal_isSome hne with ⟨m, hm⟩
  rw [hm]
  refine congrArg some (le_antisymm ?_ (le_maxVal hm hmem))
  exact hge m (maxVal_mem hm)

theorem clampQ_idem (A B gm gM : ℚ) (hAB : A ≤ B) (hg : gm ≤ gM) :
    clampQ A (clampQ A gm gM) (clampQ B gm gM) = clampQ A gm gM ∧
    clampQ B (clampQ A gm gM) (clampQ B gm gM) = clampQ B gm gM := by
  have hgmP : gm ≤ min (max A gm) gM := le_min (le_max_right A gm) hg
  have hPQ : min (max A gm) gM ≤ min (max B gm) gM :=
    min_le_min (max_le_max hAB (le_refl gm)) (le_refl gM)
  constructor
  · show min (max A (min (max A gm) gM)) (min (max B gm) gM) = min (max A gm) gM
    by_cases hA : A ≤ gM
    · have hAP : A ≤ min (max A gm) gM := le_min (le_max_left A gm) hA
      rw [max_eq_right hAP]
      exact min_eq_left hPQ
    · push_neg at hA
      have hP : min (max A gm) gM = gM :=
        min_eq_right (le_trans (le_of_lt hA) (le_max_left A gm))
      have hQ : min (max B gm) gM = gM :=
        min_eq_right (le_trans (le_of_lt hA) (le_trans hAB (le_max_left B gm)))
      rw [hP, hQ, max_eq_left (le_of_lt hA)]
      exact min_eq_right (le_of_lt hA)
  · show min (max B (min (max A gm) gM)) (min (max B gm) gM) = min (max B gm) gM
    refine min_eq_right ?_
    exact le_trans (min_le_left (max B gm) gM) (max_le_max (le_refl B) hgmP)

theorem minVal_targetsOf (network : RFNetwork) (freq_min freq_max : ℚ)
    (hne : network.freqs ≠ []) :
    minVal (targetsOf network freq_min freq_max) =
      some (targetLo network freq_min freq_max) :=
  minVal_of_least (targetLo_mem_targetsOf network freq_min freq_max)
    (fun y hy => (targetsOf_bounds hne hy).1)

theorem maxVal_targetsOf (network : RFNetwork) (freq_min freq_max : ℚ)
    (hne : network.freqs ≠ []) :
    maxVal (targetsOf network freq_min freq_max) =
      some (targetHi network freq_min freq_max) :=
  maxVal_of_greatest (targetHi_mem_targetsOf network freq_min freq_max)
    (fun y hy => (targetsOf_bounds hne hy).2)

theorem target_filter_eq (network : RFNetwork) (freq_min freq_max : ℚ)
    (hne : network.freqs ≠ []) :
    targetLo (filter_frequency_range network freq_min freq_max) freq_min
      freq_max = targetLo network freq_min freq_max ∧
    targetHi (filter_frequency_range network freq_min freq_max) freq_min
      freq_max = targetHi network freq_min freq_max := by
  rcases minVal_isSome hne with ⟨gm, hgm⟩
  rcases maxVal_isSome hne with ⟨gM, hgM⟩
  have hg : gm ≤ gM := le_maxVal hgM (minVal_mem hgm)
  have hAB : (if freq_min * 1e9 > freq_max * 1e9 then freq_max * 1e9
        else freq_min * 1e9) ≤
      (if freq_min * 1e9 > freq_max * 1e9 then freq_min * 1e9
        else freq_max * 1e9) := by
    by_cases h : freq_min * 1e9 > freq_max * 1e9
    · rw [if_pos h, if_pos h]
      exact le_of_lt h
    · rw [if_neg h, if_neg h]
      exact not_lt.mp h
  have hLo : targetLo network freq_min freq_max =
      clampQ (if freq_min * 1e9 > freq_max * 1e9 then freq_max * 1e9
        else freq_min * 1e9) gm gM := by
    unfold targetLo
    rw [hgm, hgM]
    rfl
  have hHi : targetHi network freq_min freq_max =
      clampQ (if freq_min * 1e9 > freq_max * 1e9 then freq_min * 1e9
        else freq_max * 1e9) gm gM := by
    unfold targetHi
    rw [hgm, hgM]
    rfl
  have hidem := clampQ_idem
    (if freq_min * 1e9 > freq_max * 1e9 then freq_max * 1e9
      else freq_min * 1e9)
    (if freq_min * 1e9 > freq_max * 1e9 then freq_min * 1e9
      else freq_max * 1e9) gm gM hAB hg
  constructor
  · show clampQ _
      ((minVal (filter_frequency_range network freq_min freq_max).freqs).getD 0)
      ((maxVal (filter_frequency_range network freq_min freq_max).freqs).getD 0) = _
    rw [filter_freqs_eq network freq_min freq_max hne,
      minVal_targetsOf network freq_min freq_max hne,
      maxVal_targetsOf network freq_min freq_max hne]
    simp only [Option.getD_some]
    rw [hLo, hHi]
    exact hidem.1
  · show clampQ _
      ((minVal (filter_frequency_range network freq_min freq_max).freqs).getD 0)
      ((maxVal (filter_frequency_range network freq_min freq_max).freqs).getD 0) = _
    rw [filter_freqs_eq network freq_min freq_max hne,
      minVal_targetsOf network freq_min freq_max hne,
      maxVal_targetsOf network freq_min freq_max hne]
    simp only [Option.getD_some]
    rw [hLo, hHi]
    exact hidem.2

theorem targetsOf_filter (network : RFNetwork) (freq_min freq_max : ℚ)
    (hne : network.freqs ≠ []) :
    targetsOf (filter_frequency_range network freq_min freq_max) freq_min
      freq_max = targetsOf network freq_min freq_max := by
  have htL := (target_filter_eq network freq_min freq_max hne).1
  have htH := (target_filter_eq network freq_min freq_max hne).2
  apply pairwise_lt_ext _ _ (targetsOf_pairwise _ _ _)
    (targetsOf_pairwise _ _ _)
  intro x
  rw [mem_targetsOf, htL, htH,
    filter_freqs_eq network freq_min freq_max hne]
  constructor
  · rintro (⟨hxT, _, _⟩ | h | h)
    · exact hxT
    · rw [h]
      exact targetLo_mem_targetsOf network freq_min freq_max
    · rw [h]
      exact targetHi_mem_targetsOf network freq_min freq_max
  · intro hxT
    exact Or.inl ⟨hxT, (targetsOf_bounds hne hxT).1,
      (targetsOf_bounds hne hxT).2⟩

theorem filter_idem (network : RFNetwork) (freq_min freq_max : ℚ) :
    filter_frequency_range
      (filter_frequency_range network freq_min freq_max) freq_min freq_max =
    filter_frequency_range network freq_min freq_max := by
  by_cases hne : network.freqs = []
  · have h0 : filter_frequency_range network freq_min freq_max = network := by
      unfold filter_frequency_range
      rw [if_pos hne]
    rw [h0, h0]
  · have hwne : (filter_frequency_range network freq_min freq_max).freqs ≠ [] := by
      rw [filter_freqs_eq network freq_min freq_max hne]
      intro h
      have hmem := targetLo_mem_targetsOf network freq_min freq_max
      rw [h] at hmem
      cases hmem
    rw [filter_eq_interpNetwork _ freq_min freq_max hwne,
      targetsOf_filter network freq_min freq_max hne,
      filter_eq_interpNetwork network freq_min freq_max hne]
    exact interpNetwork_grid network (targetsOf network freq_min freq_max)
      (targetsOf_pairwise network freq_min freq_max)

/-- C9: for a nonempty sweep and bounds inside the measured domain, the
windowed network starts exactly at the clamped lower bound and ends exactly
at the clamped upper bound (exact equality, hence within the 1 Hz tolerance
the claim allows), and windowing the already-windowed network to the same
bounds returns the identical network, frequencies and S values alike. -/
theorem C9_window_boundary_and_idempotence (network : RFNetwork)
    (freq_min freq_max : ℚ) (hne : network.freqs ≠ [])
    (hle : freq_min ≤ freq_max)
    (hlo : (minVal network.freqs).getD 0 ≤ freq_min * 1e9)
    (hhi : freq_max * 1e9 ≤ (maxVal network.freqs).getD 0) :
    (filter_frequency_range network freq_min freq_max).freqs.head? =
      some (freq_min * 1e9) ∧
    (filter_frequency_range network freq_min freq_max).freqs.getLast? =
      some (freq_max * 1e9) ∧
    filter_frequency_range
      (filter_frequency_range network freq_min freq_max) freq_min freq_max =
      filter_frequency_range network freq_min freq_max := by
  refine ⟨?_, ?_, filter_idem network freq_min freq_max⟩
  · rw [filter_head network freq_min freq_max hne,
      targetLo_of_domain network freq_min freq_max hle hlo hhi]
  · rw [filter_last network freq_min freq_max hne,
      targetHi_of_domain network freq_min freq_max hle hlo hhi]

/-- Witness for C9 on the two-point 1 to 3 GHz sweep windowed to [1, 3]. -/
theorem C9_window_boundary_and_idempotence_witness :
    (filter_frequency_range exampleNetworkC5 1 3).freqs.head? =
      some (1 * 1e9) ∧
    (filter_frequency_range exampleNetworkC5 1 3).freqs.getLast? =
      some (3 * 1e9) ∧
    filter_frequency_range
      (filter_frequency_range exampleNetworkC5 1 3) 1 3 =
      filter_frequency_range exampleNetworkC5 1 3 :=
  C9_window_boundary_and_idempotence exampleNetworkC5 1 3
    (by simp [exampleNetworkC5])
    (by norm_num)
    (by norm_num [exampleNetworkC5, minVal, min_def])
    (by norm_num [exampleNetworkC5, maxVal, max_def])

/-! ## Fan-out counting (claim C4) -/

theorem parse_sparamLabel : ∀ o < 10, ∀ i < 10,
    parseSParam (sparamLabel o i) = some (o, i) := by decide

theorem resolveIdx_of_bounds {n p : ℕ} (h1 : 1 ≤ p) (h2 : p ≤ n) :
    resolveIdx n ((p : ℤ) - 1) = some (p - 1) := by
  unfold resolveIdx
  rw [if_pos (by omega : 0 ≤ (p : ℤ) - 1 ∧ (p : ℤ) - 1 < (n : ℤ))]
  congr 1
  omega

theorem filter_nports (network : RFNetwork) (a b : ℚ)
    (hne : network.freqs ≠ []) :
    (filter_frequency_range network a b).nports = network.nports := by
  rw [filter_eq_interpNetwork network a b hne]
  rfl

theorem filter_s_length (network : RFNetwork) (a b : ℚ)
    (hne : network.freqs ≠ []) :
    (filter_frequency_range network a b).s.length =
      (targetsOf network a b).length := by
  rw [filter_eq_interpNetwork network a b hne]
  show ((targetsOf network a b).map _).length = _
  rw [List.length_map]

theorem targetsOf_ne_nil (network : RFNetwork) (a b : ℚ) :
    targetsOf network a b ≠ [] := by
  intro h
  have hmem := targetLo_mem_targetsOf network a b
  rw [h] at hmem
  cases hmem

theorem calculate_gain_some (network : RFNetwork) (o i : ℕ)
    (ho1 : 1 ≤ o) (ho9 : o ≤ 9) (hon : o ≤ network.nports)
    (hi1 : 1 ≤ i) (hi9 : i ≤ 9) (hin : i ≤ network.nports) :
    calculate_gain network (sparamLabel o i) =
      some (network.s.map (fun mat => db20 (sEntry mat (o - 1) (i - 1)))) := by
  unfold calculate_gain
  rw [parse_sparamLabel o (by omega) i (by omega)]
  simp only [Option.bind_eq_bind, Option.some_bind]
  rw [resolveIdx_of_bounds ho1 hon]
  simp only [Option.some_bind]
  rw [resolveIdx_of_bounds hi1 hin]
  simp only [Option.some_bind]

theorem calculate_gain_range_some (network : RFNetwork) (a b : ℚ) (o i : ℕ)
    (hne : network.freqs ≠ [])
    (ho1 : 1 ≤ o) (ho9 : o ≤ 9) (hon : o ≤ network.nports)
    (hi1 : 1 ≤ i) (hi9 : i ≤ 9) (hin : i ≤ network.nports) :
    ∃ mn mx, calculate_gain_range network a b (sparamLabel o i) =
      some (mn, mx) := by
  have hnp := filter_nports network a b hne
  have hg := calculate_gain_some (filter_frequency_range network a b) o i
    ho1 ho9 (by rw [hnp]; exact hon) hi1 hi9 (by rw [hnp]; exact hin)
  have hlen : ((filter_frequency_range network a b).s.map
      (fun mat => db20 (sEntry mat (o - 1) (i - 1)))).length ≠ 0 := by
    rw [List.length_map, filter_s_length network a b hne]
    intro h
    exact targetsOf_ne_nil network a b (List.length_eq_zero.mp h)
  have hgne : (filter_frequency_range network a b).s.map
      (fun mat => db20 (sEntry mat (o - 1) (i - 1))) ≠ [] := by
    intro h
    rw [h] at hlen
    exact hlen rfl
  rcases minVal_isSome hgne with ⟨mn, hmn⟩
  rcases maxVal_isSome hgne with ⟨mx, hmx⟩
  refine ⟨mn, mx, ?_⟩
  simp only [calculate_gain_range]
  rw [hg]
  simp only [Option.bind_eq_bind, Option.some_bind]
  rw [hmn]
  simp only [Option.some_bind]
  rw [hmx]
  simp only [Option.some_bind]

theorem calculate_vswr_some (network : RFNetwork) (a b : ℚ) (p : ℕ)
    (hne : network.freqs ≠ []) (hp1 : 1 ≤ p) (hpn : p ≤ network.nports) :
    ∃ v, calculate_vswr network p a b = some v := by
  have hlen : ((filter_frequency_range network a b).s.map
      (fun mat => vswrPoint (sEntry mat (p - 1) (p - 1)))).length ≠ 0 := by
    rw [List.length_map, filter_s_length network a b hne]
    intro h
    exact targetsOf_ne_nil network a b (List.length_eq_zero.mp h)
  have hvne : (filter_frequency_range network a b).s.map
      (fun mat => vswrPoint (sEntry mat (p - 1) (p - 1))) ≠ [] := by
    intro h
    rw [h] at hlen
    exact hlen rfl
  rcases maxVal_isSome hvne with ⟨v, hv⟩
  refine ⟨v, ?_⟩
  simp only [calculate_vswr]
  rw [resolveIdx_of_bounds hp1 hpn]
  simp only [Option.bind_eq_bind, Option.some_bind]
  exact hv

theorem flatness_of_gain_range {network : RFNetwork} {a b : ℚ} {sp : String}
    {mn mx : ℝ} (h : calculate_gain_range network a b sp = some (mn, mx)) :
    calculate_flatness network a b sp = some (mx - mn) := by
  unfold calculate_flatness
  rw [h]
  rfl

theorem lowest_of_gain_range {network : RFNetwork} {a b : ℚ} {sp : String}
    {mn mx : ℝ} (h : calculate_gain_range network a b sp = some (mn, mx)) :
    calculate_lowest_in_band_gain network a b sp = some mn := by
  unfold calculate_lowest_in_band_gain
  rw [h]
  rfl

theorem pairMetrics_of_some {network : RFNetwork} {a b : ℚ} {o i : ℕ}
    {mn mx : ℝ}
    (h : calculate_gain_range network a b (sparamLabel (o + 1) (i + 1)) =
      some (mn, mx)) :
    pairMetrics network a b o i =
      [((sparamLabel (o + 1) (i + 1), MetricKind.gainRangeKey),
          MetricValue.gainRange mn mx),
       ((sparamLabel (o + 1) (i + 1), MetricKind.flatnessKey),
          MetricValue.flatness (mx - mn)),
       ((sparamLabel (o + 1) (i + 1), MetricKind.lowestGainKey),
          MetricValue.lowestGain mn)] := by
  simp only [pairMetrics, h, flatness_of_gain_range h, lowest_of_gain_range h]

theorem gain_metric_mem (network : RFNetwork) (a b : ℚ) (o i : ℕ)
    (hne : network.freqs ≠ [])
    (ho1 : 1 ≤ o) (ho9 : o ≤ 9) (hon : o ≤ network.nports)
    (hi1 : 1 ≤ i) (hi9 : i ≤ 9) (hin : i ≤ network.nports) :
    ∃ mn mx, ((sparamLabel o i, MetricKind.gainRangeKey),
      MetricValue.gainRange mn mx) ∈ metricsOfNetwork network a b := by
  rcases calculate_gain_range_some network a b o i hne ho1 ho9 hon hi1 hi9 hin
    with ⟨mn, mx, hgr⟩
  have ho : o - 1 + 1 = o := by omega
  have hi : i - 1 + 1 = i := by omega
  refine ⟨mn, mx, ?_⟩
  unfold metricsOfNetwork
  apply List.mem_append_left
  apply List.mem_flatMap.mpr
  refine ⟨o - 1, List.mem_range.mpr (by omega), ?_⟩
  apply List.mem_flatMap.mpr
  refine ⟨i - 1, List.mem_range.mpr (by omega), ?_⟩
  rw [pairMetrics_of_some (by rw [ho, hi]; exact hgr)]
  rw [ho, hi]
  exact List.mem_cons_self _ _

theorem vswr_metric_mem (network : RFNetwork) (a b : ℚ) (p : ℕ)
    (hne : network.freqs ≠ []) (hp1 : 1 ≤ p) (hpn : p ≤ network.nports) :
    ∃ v, ((sparamLabel p p, MetricKind.vswrKey), MetricValue.vswr v) ∈
      metricsOfNetwork network a b := by
  rcases calculate_vswr_some network a b p hne hp1 hpn with ⟨v, hv⟩
  have hp : p - 1 + 1 = p := by omega
  refine ⟨v, ?_⟩
  unfold metricsOfNetwork
  apply List.mem_append_right
  apply List.mem_filterMap.mpr
  refine ⟨p - 1, List.mem_range.mpr (by omega), ?_⟩
  unfold vswrMetric
  rw [hp, hv]

theorem gain_metric_shape (network : RFNetwork) (a b : ℚ) (key : String)
    (v : MetricValue)
    (hmem : ((key, MetricKind.gainRangeKey), v) ∈
      metricsOfNetwork network a b) :
    ∃ mn mx, v = MetricValue.gainRange mn mx := by
  unfold metricsOfNetwork at hmem
  rcases List.mem_append.mp hmem with h | h
  · rcases List.mem_flatMap.mp h with ⟨o, _, h2⟩
    rcases List.mem_flatMap.mp h2 with ⟨i, _, h3⟩
    simp only [pairMetrics] at h3
    rcases hgr : calculate_gain_range network a b (sparamLabel (o + 1) (i + 1))
      with _ | ⟨mn, mx⟩
    · rw [hgr] at h3
      simp at h3
    · rw [hgr] at h3
      rcases hfl : calculate_flatness network a b (sparamLabel (o + 1) (i + 1))
        with _ | fl
      · rw [hfl] at h3
        simp at h3
        exact ⟨mn, mx, h3.2⟩
      · rw [hfl] at h3
        rcases hlg : calculate_lowest_in_band_gain network a b
            (sparamLabel (o + 1) (i + 1)) with _ | lg
        · rw [hlg] at h3
          simp at h3
          exact ⟨mn, mx, by tauto⟩
        · rw [hlg] at h3
          simp at h3
          exact ⟨mn, mx, by tauto⟩
  · rcases List.mem_filterMap.mp h with ⟨p, _, hp⟩
    simp only [vswrMetric] at hp
    rcases hv : calculate_vswr network (p + 1) a b with _ | v₂
    · rw [hv] at hp
      cases hp
    · rw [hv] at hp
      simp at hp

theorem vswr_metric_shape (network : RFNetwork) (a b : ℚ) (key : String)
    (v : MetricValue)
    (hmem : ((key, MetricKind.vswrKey), v) ∈ metricsOfNetwork network a b) :
    ∃ w, v = MetricValue.vswr w := by
  unfold metricsOfNetwork at hmem
  rcases List.mem_append.mp hmem with h | h
  · rcases List.mem_flatMap.mp h with ⟨o, _, h2⟩
    rcases List.mem_flatMap.mp h2 with ⟨i, _, h3⟩
    simp only [pairMetrics] at h3
    rcases hgr : calculate_gain_range network a b (sparamLabel (o + 1) (i + 1))
      with _ | ⟨mn, mx⟩
    · rw [hgr] at h3
      simp at h3
    · rw [hgr] at h3
      rcases hfl : calculate_flatness network a b (sparamLabel (o + 1) (i + 1))
        with _ | fl
      · rw [hfl] at h3
        simp at h3
      · rw [hfl] at h3
        rcases hlg : calculate_lowest_in_band_gain network a b
            (sparamLabel (o + 1) (i + 1)) with _ | lg
        · rw [hlg] at h3
          simp at h3
        · rw [hlg] at h3
          simp at h3
  · rcases List.mem_filterMap.mp h with ⟨p, _, hp⟩
    simp only [vswrMetric] at hp
    rcases hv : calculate_vswr network (p + 1) a b with _ | v₂
    · rw [hv] at hp
      cases hp
    · rw [hv] at hp
      simp at hp
      exact ⟨v₂, by tauto⟩

theorem gain_metric_lookup (network : RFNetwork) (a b : ℚ) (o i : ℕ)
    (hne : network.freqs ≠ [])
    (ho1 : 1 ≤ o) (ho9 : o ≤ 9) (hon : o ≤ network.nports)
    (hi1 : 1 ≤ i) (hi9 : i ≤ 9) (hin : i ≤ network.nports) :
    ∃ mn mx, alookup (sparamLabel o i, MetricKind.gainRangeKey)
      (metricsOfNetwork network a b) = some (MetricValue.gainRange mn mx) := by
  rcases gain_metric_mem network a b o i hne ho1 ho9 hon hi1 hi9 hin
    with ⟨mn, mx, hmem⟩
  rcases alookup_found (sparamLabel o i, MetricKind.gainRangeKey)
      (fun v => ∃ mn₂ mx₂, v = MetricValue.gainRange mn₂ mx₂)
      (metricsOfNetwork network a b)
      ⟨MetricValue.gainRange mn mx, hmem⟩
      (fun v hv => gain_metric_shape network a b (sparamLabel o i) v hv)
    with ⟨v, hl, mn₂, mx₂, hshape⟩
  exact ⟨mn₂, mx₂, by rw [hl, hshape]⟩

theorem vswr_metric_lookup (network : RFNetwork) (a b : ℚ) (p : ℕ)
    (hne : network.freqs ≠ []) (hp1 : 1 ≤ p) (hpn : p ≤ network.nports) :
    ∃ w, alookup (sparamLabel p p, MetricKind.vswrKey)
      (metricsOfNetwork network a b) = some (MetricValue.vswr w) := by
  rcases vswr_metric_mem network a b p hne hp1 hpn with ⟨v, hmem⟩
  rcases alookup_found (sparamLabel p p, MetricKind.vswrKey)
      (fun v₂ => ∃ w, v₂ = MetricValue.vswr w)
      (metricsOfNetwork network a b)
      ⟨MetricValue.vswr v, hmem⟩
      (fun v₂ hv => vswr_metric_shape network a b (sparamLabel p p) v₂ hv)
    with ⟨v₂, hl, w, hshape⟩
  exact ⟨w, by rw [hl, hshape]⟩

theorem evaluate_total (c : TestCriteria) (hv : validateCriteria c = true)
    (v : ℝ) : ∃ p, c.evaluate v = some p := by
  unfold validateCriteria at hv
  rcases Bool.and_eq_true_iff.mp hv with ⟨hv1, _⟩
  rcases Bool.and_eq_true_iff.mp hv1 with ⟨hmem, hbranch⟩
  have hmem2 := of_decide_eq_true hmem
  simp only [List.mem_cons, List.not_mem_nil, or_false] at hmem2
  rcases hmem2 with ht | ht | ht | ht | ht
  · rw [ht] at hbranch
    simp only [if_pos rfl] at hbranch
    rcases hmin : c.min_value with _ | lo
    · rw [hmin] at hbranch
      cases hbranch
    · rcases hmax : c.max_value with _ | hi
      · rw [hmin, hmax] at hbranch
        cases hbranch
      · exact ⟨_, evaluate_range_eq c lo hi v ht hmin hmax⟩
  · rw [ht] at hbranch
    simp only at hbranch
    rcases hmin : c.min_value with _ | lo
    · rw [hmin] at hbranch
      simp at hbranch
    · exact ⟨_, evaluate_min_eq c lo v (Or.inl ht) hmin⟩
  · rw [ht] at hbranch
    simp only at hbranch
    rcases hmax : c.max_value with _ | hi
    · rw [hmax] at hbranch
      simp at hbranch
    · exact ⟨_, evaluate_max_eq c hi v (Or.inl ht) hmax⟩
  · rw [ht] at hbranch
    simp only at hbranch
    rcases hmax : c.max_value with _ | hi
    · rw [hmax] at hbranch
      simp at hbranch
    · exact ⟨_, evaluate_max_eq c hi v (Or.inr ht) hmax⟩
  · rw [ht] at hbranch
    simp only at hbranch
    rcases hmin : c.min_value with _ | lo
    · rw [hmin] at hbranch
      simp at hbranch
    · exact ⟨_, evaluate_min_eq c lo v (Or.inr ht) hmin⟩

theorem sum_map_const {α : Type} :
    ∀ (l : List α) (m : ℕ), (l.map (fun _ => m)).sum = l.length * m := by
  intro l m
  induction l with
  | nil => simp
  | cons x xs ih =>
    simp only [List.map_cons, List.sum_cons, ih, List.length_cons]
    ring

theorem length_gain_s_params (d : Device) (n : ℕ)
    (hin : ∀ p ∈ d.input_ports, p ≤ n)
    (hout : ∀ p ∈ d.output_ports, p ≤ n) :
    (d.get_gain_s_parameters n).length =
      d.input_ports.length * d.output_ports.length := by
  unfold Device.get_gain_s_parameters
  rw [List.length_mergeSort, List.length_flatMap]
  have hcong : ∀ ip ∈ d.input_ports,
      (List.length ∘ (fun input_port => d.output_ports.filterMap
        (fun output_port =>
          if input_port ≤ n ∧ output_port ≤ n then
            some (sparamLabel output_port input_port)
          else none))) ip = d.output_ports.length := by
    intro ip hip
    show (d.output_ports.filterMap _).length = _
    apply length_filterMap_of_all
    intro op hop
    rw [if_pos ⟨hin ip hip, hout op hop⟩]
    exact ⟨_, rfl⟩
  rw [List.map_congr_left hcong]
  exact sum_map_const d.input_ports d.output_ports.length

theorem mem_gain_s_params {d : Device} {n : ℕ} {sp : String} :
    sp ∈ d.get_gain_s_parameters n ↔
      ∃ ip ∈ d.input_ports, ∃ op ∈ d.output_ports,
        ip ≤ n ∧ op ≤ n ∧ sp = sparamLabel op ip := by
  unfold Device.get_gain_s_parameters
  rw [(List.mergeSort_perm _ _).mem_iff]
  rw [List.mem_flatMap]
  constructor
  · rintro ⟨ip, hip, hmem⟩
    rcases List.mem_filterMap.mp hmem with ⟨op, hop, hif⟩
    by_cases hb : ip ≤ n ∧ op ≤ n
    · rw [if_pos hb] at hif
      exact ⟨ip, hip, op, hop, hb.1, hb.2, (Option.some.injEq _ _ ▸ hif).symm⟩
    · rw [if_neg hb] at hif
      cases hif
  · rintro ⟨ip, hip, op, hop, h1, h2, rfl⟩
    refine ⟨ip, hip, List.mem_filterMap.mpr ⟨op, hop, ?_⟩⟩
    rw [if_pos ⟨h1, h2⟩]

theorem length_vswr_s_params (d : Device) (n : ℕ)
    (hall : ∀ p ∈ d.input_ports ++ d.output_ports, p ≤ n) :
    (d.get_vswr_s_parameters n).length =
      ((d.input_ports ++ d.output_ports).dedup).length := by
  unfold Device.get_vswr_s_parameters Device.get_all_ports
  rw [List.length_mergeSort, List.length_map]
  rw [List.filter_eq_self.mpr ?_]
  · rw [List.length_mergeSort]
  · intro p hp
    have hp2 : p ∈ (d.input_ports ++ d.output_ports).dedup :=
      (List.mergeSort_perm _ _).mem_iff.mp hp
    exact decide_eq_true (hall p (List.mem_dedup.mp hp2))

theorem mem_vswr_s_params {d : Device} {n : ℕ} {sp : String} :
    sp ∈ d.get_vswr_s_parameters n ↔
      ∃ p ∈ (d.input_ports ++ d.output_ports).dedup,
        p ≤ n ∧ sp = sparamLabel p p := by
  unfold Device.get_vswr_s_parameters Device.get_all_ports
  rw [(List.mergeSort_perm _ _).mem_iff]
  rw [List.mem_map]
  constructor
  · rintro ⟨p, hp, rfl⟩
    rcases List.mem_filter.mp hp with ⟨hp1, hp2⟩
    exact ⟨p, (List.mergeSort_perm _ _).mem_iff.mp hp1,
      of_decide_eq_true hp2, rfl⟩
  · rintro ⟨p, hp, hpn, rfl⟩
    refine ⟨p, List.mem_filter.mpr
      ⟨(List.mergeSort_perm _ _).mem_iff.mpr hp, decide_eq_true hpn⟩, rfl⟩

theorem evaluateGainRange_some (c : TestCriteria) (network : RFNetwork)
    (a b : ℚ) (m : Measurement) (o i : ℕ)
    (hvalid : validateCriteria c = true) (hne : network.freqs ≠ [])
    (ho1 : 1 ≤ o) (ho9 : o ≤ 9) (hon : o ≤ network.nports)
    (hi1 : 1 ≤ i) (hi9 : i ≤ 9) (hin : i ≤ network.nports) :
    ∃ r, evaluateGainRangeCriterion c (metricsOfNetwork network a b)
      (sparamLabel o i) m = some r := by
  rcases gain_metric_lookup network a b o i hne ho1 ho9 hon hi1 hi9 hin
    with ⟨mn, mx, hl⟩
  rcases evaluate_total c hvalid mn with ⟨p1, he1⟩
  rcases evaluate_total c hvalid mx with ⟨p2, he2⟩
  exact ⟨{ measurement_id := m.id, test_criteria_id := c.id,
           measured_value := some mx, passed := p1 && p2,
           s_parameter := some (sparamLabel o i) },
    by simp only [evaluateGainRangeCriterion, hl, he1, he2]⟩

theorem evaluateVswr_some (c : TestCriteria) (network : RFNetwork)
    (a b : ℚ) (m : Measurement) (p : ℕ)
    (hvalid : validateCriteria c = true) (hne : network.freqs ≠ [])
    (hp1 : 1 ≤ p) (hpn : p ≤ network.nports) :
    ∃ r, evaluateVswrCriterion c (metricsOfNetwork network a b)
      (sparamLabel p p) m = some r := by
  rcases vswr_metric_lookup network a b p hne hp1 hpn with ⟨w, hl⟩
  rcases evaluate_total c hvalid w with ⟨p1, he1⟩
  exact ⟨{ measurement_id := m.id, test_criteria_id := c.id,
           measured_value := some w, passed := p1,
           s_parameter := some (sparamLabel p p) },
    by simp only [evaluateVswrCriterion, hl, he1]⟩

/-- C4: a single gain-range criterion fans out to exactly one result per
(input, output) port pair, and a single VSWR criterion fans out to exactly
one result per port in the union of the input and output port lists, both
bounded by the actual network port count (all configured ports lie within
it here, and within the single-digit label space of the engine). -/
theorem C4_fan_out_counts (network : RFNetwork) (d : Device)
    (cg cv : TestCriteria) (m : Measurement) (a b : ℚ)
    (hne : network.freqs ≠ [])
    (hports : ∀ p ∈ d.input_ports ++ d.output_ports,
      1 ≤ p ∧ p ≤ network.nports ∧ p ≤ 9)
    (hg : strContains (strToLower cg.requirement_name) "gain" = true)
    (hr : strContains (strToLower cg.requirement_name) "range" = true)
    (hvg : validateCriteria cg = true)
    (hv1 : strContains (strToLower cv.requirement_name) "vswr" = true)
    (hv2 : strContains (strToLower cv.requirement_name) "gain" = false ∨
      strContains (strToLower cv.requirement_name) "range" = false)
    (hv3 : strContains (strToLower cv.requirement_name) "flatness" = false)
    (hvv : validateCriteria cv = true) :
    (evaluateCriterionForAllSParams cg (metricsOfNetwork network a b) network
        m a b (d.get_gain_s_parameters network.nports)
        (d.get_vswr_s_parameters network.nports)).length =
      d.input_ports.length * d.output_ports.length ∧
    (evaluateCriterionForAllSParams cv (metricsOfNetwork network a b) network
        m a b (d.get_gain_s_parameters network.nports)
        (d.get_vswr_s_parameters network.nports)).length =
      ((d.input_ports ++ d.output_ports).dedup).length := by
  have hin : ∀ p ∈ d.input_ports, p ≤ network.nports := fun p hp =>
    (hports p (List.mem_append_left _ hp)).2.1
  have hout : ∀ p ∈ d.output_ports, p ≤ network.nports := fun p hp =>
    (hports p (List.mem_append_right _ hp)).2.1
  constructor
  · have hbranch : evaluateCriterionForAllSParams cg
        (metricsOfNetwork network a b) network m a b
        (d.get_gain_s_parameters network.nports)
        (d.get_vswr_s_parameters network.nports) =
        (d.get_gain_s_parameters network.nports).filterMap
          (fun sp => evaluateGainRangeCriterion cg
            (metricsOfNetwork network a b) sp m) := by
      simp [evaluateCriterionForAllSParams, hg, hr]
    have hall : ∀ sp ∈ d.get_gain_s_parameters network.nports,
        ∃ r, evaluateGainRangeCriterion cg (metricsOfNetwork network a b)
          sp m = some r := by
      intro sp hsp
      rcases mem_gain_s_params.mp hsp with ⟨ip, hip, op, hop, h1, h2, rfl⟩
      have hipb := hports ip (List.mem_append_left _ hip)
      have hopb := hports op (List.mem_append_right _ hop)
      exact evaluateGainRange_some cg network a b m op ip hvg hne
        hopb.1 hopb.2.2 h2 hipb.1 hipb.2.2 h1
    rw [hbranch, length_filterMap_of_all _ _ hall,
      length_gain_s_params d network.nports hin hout]
  · have hgr2 : (strContains (strToLower cv.requirement_name) "gain" &&
        strContains (strToLower cv.requirement_name) "range") = false := by
      rcases hv2 with h | h <;> simp [h]
    have hbranch : evaluateCriterionForAllSParams cv
        (metricsOfNetwork network a b) network m a b
        (d.get_gain_s_parameters network.nports)
        (d.get_vswr_s_parameters network.nports) =
        (d.get_vswr_s_parameters network.nports).filterMap
          (fun sp => evaluateVswrCriterion cv
            (metricsOfNetwork network a b) sp m) := by
      simp [evaluateCriterionForAllSParams, hgr2, hv3, hv1]
    have hall : ∀ sp ∈ d.get_vswr_s_parameters network.nports,
        ∃ r, evaluateVswrCriterion cv (metricsOfNetwork network a b)
          sp m = some r := by
      intro sp hsp
      rcases mem_vswr_s_params.mp hsp with ⟨p, hp, hpn, rfl⟩
      have hpb := hports p (List.mem_dedup.mp hp)
      exact evaluateVswr_some cv network a b m p hvv hne hpb.1 hpn
    rw [hbranch, length_filterMap_of_all _ _ hall,
      length_vswr_s_params d network.nports
        (fun p hp => (hports p hp).2.1)]

/-- Concrete device for the C4 witness: port 1 in, port 2 out. -/
def exampleDeviceC4 : Device := { input_ports := [1], output_ports := [2] }

/-- Concrete VSWR criterion used by the C4 witness. -/
noncomputable def exampleVswrCriterion : TestCriteria :=
  { id := 6, device_id := 1, test_type := "S-Parameters", test_stage := "SIT",
    requirement_name := "VSWR Max", criteria_type := "max",
    min_value := none, max_value := some 2, unit := "",
    frequency_min := none, frequency_max := none }

/-- Witness for C4 on a 2-port network: one gain-range result (1 input x
1 output) and two VSWR results (two ports in the union). -/
theorem C4_fan_out_counts_witness :
    (evaluateCriterionForAllSParams exampleRangeCriterion
        (metricsOfNetwork exampleNetworkC6 1 1) exampleNetworkC6
        exampleMeasurementC5 1 1
        (exampleDeviceC4.get_gain_s_parameters exampleNetworkC6.nports)
        (exampleDeviceC4.get_vswr_s_parameters exampleNetworkC6.nports)).length
      = 1 ∧
    (evaluateCriterionForAllSParams exampleVswrCriterion
        (metricsOfNetwork exampleNetworkC6 1 1) exampleNetworkC6
        exampleMeasurementC5 1 1
        (exampleDeviceC4.get_gain_s_parameters exampleNetworkC6.nports)
        (exampleDeviceC4.get_vswr_s_parameters exampleNetworkC6.nports)).length
      = 2 := by
  have hvg : validateCriteria exampleRangeCriterion = true := by
    norm_num [validateCriteria, exampleRangeCriterion]
  have hvv : validateCriteria exampleVswrCriterion = true := by
    norm_num [validateCriteria, exampleVswrCriterion]
    decide
  have h := C4_fan_out_counts exampleNetworkC6 exampleDeviceC4
    exampleRangeCriterion exampleVswrCriterion exampleMeasurementC5 1 1
    (by simp [exampleNetworkC6]) (by decide)
    (by decide) (by decide) hvg (by decide) (Or.inl (by decide)) (by decide)
    hvv
  exact ⟨h.1.trans (by decide), h.2.trans (by decide)⟩

/-! ## Per-label failure isolation (claim C7) -/

theorem filterMap_skip_none {α β : Type} [DecidableEq α] (f : α → Option β)
    (x : α) (hx : f x = none) :
    ∀ l : List α, l.filterMap f =
      (l.filter (fun y => decide (y ≠ x))).filterMap f := by
  intro l
  induction l with
  | nil => rfl
  | cons z zs ih =>
    rw [List.filter_cons]
    by_cases hz : z = x
    · rw [if_neg (by simp [hz])]
      subst hz
      rw [List.filterMap_cons, hx]
      exact ih
    · rw [if_pos (by simp [hz])]
      cases hfz : f z <;> simp only [List.filterMap_cons, hfz, ih]

/-- C7: with touchstone data present, evaluate_compliance always returns a
result list (it never raises from a per-label metric failure), that list is
exactly the concatenation of every per-criterion evaluation, an OOB label
whose metric calculation fails is simply dropped from its fan-out while all
other labels of the same criterion are kept, and every result a criterion
produces appears in the returned list. -/
theorem C7_per_label_isolation (m : Measurement) (device : Device)
    (criteria : List TestCriteria) (a b : ℚ) (network : RFNetwork)
    (htd : m.touchstone_data = some network) :
    (evaluate_compliance m device criteria a b =
      some (criteria.flatMap (fun c =>
        evaluateCriterionForAllSParams c (metricsOfNetwork network a b)
          network m a b (device.get_gain_s_parameters network.nports)
          (device.get_vswr_s_parameters network.nports)))) ∧
    (∀ c : TestCriteria, ∀ sp_bad : String,
      (strContains (strToLower c.requirement_name) "gain" = false ∨
        strContains (strToLower c.requirement_name) "range" = false) →
      strContains (strToLower c.requirement_name) "flatness" = false →
      strContains (strToLower c.requirement_name) "vswr" = false →
      ∀ oob_min oob_max : ℚ, c.frequency_min = some oob_min →
      c.frequency_max = some oob_max →
      evaluateOobCriterion c network sp_bad m a b = none →
      evaluateCriterionForAllSParams c (metricsOfNetwork network a b) network
        m a b (device.get_gain_s_parameters network.nports)
        (device.get_vswr_s_parameters network.nports) =
        ((device.get_gain_s_parameters network.nports).filter
          (fun sp => decide (sp ≠ sp_bad))).filterMap
          (fun sp => evaluateOobCriterion c network sp m a b)) ∧
    (∀ c ∈ criteria, ∀ r ∈ evaluateCriterionForAllSParams c
        (metricsOfNetwork network a b) network m a b
        (device.get_gain_s_parameters network.nports)
        (device.get_vswr_s_parameters network.nports),
      ∃ res, evaluate_compliance m device criteria a b = some res ∧
        r ∈ res) := by
  have h1 : evaluate_compliance m device criteria a b =
      some (criteria.flatMap (fun c =>
        evaluateCriterionForAllSParams c (metricsOfNetwork network a b)
          network m a b (device.get_gain_s_parameters network.nports)
          (device.get_vswr_s_parameters network.nports))) := by
    simp only [evaluate_compliance, calculate_metrics, htd]
  refine ⟨h1, ?_, ?_⟩
  · intro c sp_bad hgr hfl hv oob_min oob_max hfm hfM hbad
    have hgr2 : (strContains (strToLower c.requirement_name) "gain" &&
        strContains (strToLower c.requirement_name) "range") = false := by
      rcases hgr with h | h <;> simp [h]
    have hbranch : evaluateCriterionForAllSParams c
        (metricsOfNetwork network a b) network m a b
        (device.get_gain_s_parameters network.nports)
        (device.get_vswr_s_parameters network.nports) =
        (device.get_gain_s_parameters network.nports).filterMap
          (fun sp => evaluateOobCriterion c network sp m a b) := by
      simp [evaluateCriterionForAllSParams, hgr2, hfl, hv, hfm, hfM]
    rw [hbranch]
    exact filterMap_skip_none _ sp_bad hbad _
  · intro c hc r hr
    refine ⟨_, h1, ?_⟩
    exact List.mem_flatMap.mpr ⟨c, hc, hr⟩

/-- Network with an empty sweep: every per-label metric calculation fails
(np.min over an empty array raises), exercising the skip paths. -/
def exampleNetworkC7 : RFNetwork := { freqs := [], nports := 2, s := [] }

/-- Measurement wrapping the empty-sweep network. -/
def exampleMeasurementC7 : Measurement :=
  { id := 9, touchstone_data := some exampleNetworkC7 }

/-- Witness for C7: with an OOB criterion whose rejection calculation fails
for the label S21, evaluate_compliance still returns a list (never raises),
and the failing label is dropped while the fan-out of the remaining labels
is untouched. -/
theorem C7_per_label_isolation_witness :
    evaluate_compliance exampleMeasurementC7 exampleDeviceC4
      [exampleOob60Criterion] 1 1 =
      some ([exampleOob60Criterion].flatMap (fun c =>
        evaluateCriterionForAllSParams c
          (metricsOfNetwork exampleNetworkC7 1 1) exampleNetworkC7
          exampleMeasurementC7 1 1
          (exampleDeviceC4.get_gain_s_parameters exampleNetworkC7.nports)
          (exampleDeviceC4.get_vswr_s_parameters exampleNetworkC7.nports))) ∧
    evaluateCriterionForAllSParams exampleOob60Criterion
      (metricsOfNetwork exampleNetworkC7 1 1) exampleNetworkC7
      exampleMeasurementC7 1 1
      (exampleDeviceC4.get_gain_s_parameters exampleNetworkC7.nports)
      (exampleDeviceC4.get_vswr_s_parameters exampleNetworkC7.nports) =
      ((exampleDeviceC4.get_gain_s_parameters
          exampleNetworkC7.nports).filter
        (fun sp => decide (sp ≠ "S21"))).filterMap
        (fun sp => evaluateOobCriterion exampleOob60Criterion
          exampleNetworkC7 sp exampleMeasurementC7 1 1) := by
  have hp : parseSParam "S21" = some (2, 1) := rfl
  have hbad : evaluateOobCriterion exampleOob60Criterion exampleNetworkC7
      "S21" exampleMeasurementC7 1 1 = none := by
    norm_num [evaluateOobCriterion, exampleOob60Criterion,
      exampleZeroOobCriterion, exampleNetworkC7,
      calculate_oob_rejection, calculate_lowest_in_band_gain,
      calculate_gain_range, calculate_gain, hp, resolveIdx,
      filter_frequency_range, minVal]
  have h := C7_per_label_isolation exampleMeasurementC7 exampleDeviceC4
    [exampleOob60Criterion] 1 1 exampleNetworkC7 rfl
  exact ⟨h.1, h.2.1 exampleOob60Criterion "S21" (Or.inl (by decide))
    (by decide) (by decide) 2 3 rfl rfl hbad⟩
